import Mathlib

/-!
Verification of the JobGipfel scraper core: a shallow embedding of the
normalization store (`internal/store/store.go`), the fetch client retry loop
(`internal/scraper/client.go`) and the run orchestrator
(`internal/scraper/runner.go`), together with proofs about the claims of the
specification.
-/

set_option maxHeartbeats 1000000

namespace JobGipfel

/-! ## Data model (internal/models) -/

/-- Coordinates of a job location (`models.Coordinates`). -/
structure Coordinates where
  lon : String
  lat : String
deriving DecidableEq, Repr

/-- A per-language job description (`models.JobDescription`). -/
structure JobDescription where
  languageIsoCode : String
  title : String
  description : String
deriving DecidableEq, Repr

/-- Employer payload (`models.Company`). -/
structure Company where
  name : String
  street : String
  houseNumber : Option String
  postalCode : String
  city : String
  countryIsoCode : String
  phone : Option String
  email : Option String
  website : Option String
  surrogate : Bool
deriving DecidableEq, Repr

/-- Employment terms (`models.Employment`). -/
structure Employment where
  startDate : Option String
  endDate : Option String
  shortEmployment : Bool
  immediately : Bool
  permanent : Bool
  workloadPercentageMin : String
  workloadPercentageMax : String
deriving DecidableEq, Repr

/-- Job location payload (`models.Location`).  Note that the payload carries
both a `regionCode` and a `cantonCode` as distinct fields. -/
structure Location where
  remarks : Option String
  city : String
  postalCode : String
  communalCode : String
  regionCode : String
  cantonCode : String
  countryIsoCode : String
  coordinates : Coordinates
deriving DecidableEq, Repr

/-- Occupation classification (`models.Occupation`). -/
structure Occupation where
  avamOccupationCode : String
  workExperience : String
  educationCode : Option String
  qualificationCode : Option String
deriving DecidableEq, Repr

/-- Application channel (`models.ApplyChannel`). -/
structure ApplyChannel where
  rawPostAddress : Option String
  postAddress : Option String
  emailAddress : Option String
  phoneNumber : Option String
  formURL : Option String
  additionalInfo : Option String
deriving DecidableEq, Repr

/-- Publication window and display flags (`models.Publication`). -/
structure Publication where
  startDate : String
  endDate : String
  euresDisplay : Bool
  publicDisplay : Bool
  restrictedDisplay : Option Bool
  companyAnonymous : Option Bool
deriving DecidableEq, Repr

/-- Nested job content (`models.JobContent`). -/
structure JobContent where
  externalURL : String
  numberOfJobs : String
  jobDescriptions : List JobDescription
  company : Company
  employment : Employment
  location : Location
  occupations : List Occupation
  applyChannel : ApplyChannel
deriving DecidableEq, Repr

/-- Full job payload (`models.JobDetail`); also the element type of a fetched
page, since `FetchJobsWithRequest` returns `[]models.JobDetail`. -/
structure JobDetail where
  id : String
  createdTime : String
  updatedTime : String
  status : String
  sourceSystem : String
  externalReference : String
  stellennummerEgov : String
  fingerprint : Option String
  reportingObligation : Bool
  jobContent : JobContent
  publication : Publication
deriving DecidableEq, Repr

/-- Scrape request parameters used by the runner (`models.ScrapeRequest`);
only the fields the run loop reads are modelled. -/
structure ScrapeRequest where
  strategy : String
  maxPages : Nat
  startPage : Nat
deriving DecidableEq, Repr

/-! ## Datastore rows and state (internal/store) -/

/-- A row of the `jobs` table.  The `rawData` column stores the JSON
serialization of the payload; since that encoding is injective it is
represented by the payload itself. -/
structure JobRow where
  id : String
  createdTime : String
  updatedTime : String
  status : String
  sourceSystem : String
  externalRef : String
  stellennummerEgov : String
  fingerprint : Option String
  reportingObligation : Bool
  rawData : JobDetail
  companyId : Nat
  locationId : Nat
deriving DecidableEq, Repr

/-- A row of the `companies` table with its surrogate key `id`. -/
structure CompanyRow where
  id : Nat
  name : String
  street : String
  houseNumber : Option String
  postalCode : String
  city : String
  countryIsoCode : String
  phone : Option String
  email : Option String
  website : Option String
  surrogate : Bool
deriving DecidableEq, Repr

/-- A row of the `locations` table with its surrogate key `id`.  The lat/lon
columns hold the numeric parse of the payload strings; since no verified
property reads them they are represented by the source strings. -/
structure LocationRow where
  id : Nat
  remarks : Option String
  city : String
  postalCode : String
  communalCode : String
  regionCode : String
  cantonCode : String
  countryIsoCode : String
  lat : String
  lon : String
deriving DecidableEq, Repr

/-- A row of the `employments` child table (dates and workloads are kept as
the payload text; no verified property reads the parsed values). -/
structure EmploymentRow where
  jobId : String
  payload : Employment
deriving DecidableEq, Repr

/-- A row of the `publications` child table. -/
structure PublicationRow where
  jobId : String
  payload : Publication
deriving DecidableEq, Repr

/-- A row of the `apply_channels` child table. -/
structure ApplyChannelRow where
  jobId : String
  payload : ApplyChannel
deriving DecidableEq, Repr

/-- A row of the `job_descriptions` child table; the table has a uniqueness
constraint on `(job_id, language_iso_code)`. -/
structure JobDescriptionRow where
  jobId : String
  languageIsoCode : String
  title : String
  description : String
deriving DecidableEq, Repr

/-- A row of the `occupations` child table. -/
structure OccupationRow where
  jobId : String
  payload : Occupation
deriving DecidableEq, Repr

/-- The datastore state: one list per table, plus the sequence counters that
generate the surrogate keys of companies and locations. -/
structure DBState where
  jobs : List JobRow
  companies : List CompanyRow
  locations : List LocationRow
  employments : List EmploymentRow
  publications : List PublicationRow
  applyChannels : List ApplyChannelRow
  jobDescriptions : List JobDescriptionRow
  occupations : List OccupationRow
  nextCompanyId : Nat
  nextLocationId : Nat
deriving DecidableEq, Repr

/-- The empty datastore. -/
def DBState.empty : DBState :=
  ⟨[], [], [], [], [], [], [], [], 0, 0⟩

/-! ## Store operations (store.go) -/

/-- The natural dedup key of an employer: name + postal code + city
(the WHERE clause of the lookup in `getOrCreateCompany`). -/
def companyKey (c : Company) : String × String × String :=
  (c.name, c.postalCode, c.city)

/-- The natural key of a stored employer row. -/
def companyRowKey (r : CompanyRow) : String × String × String :=
  (r.name, r.postalCode, r.city)

/-- The natural dedup key of a location as the code computes it:
postal code + city + canton code (the WHERE clause of the lookup in
`getOrCreateLocation`). -/
def locationKey (l : Location) : String × String × String :=
  (l.postalCode, l.city, l.cantonCode)

/-- The natural key of a stored location row, matching `locationKey`. -/
def locationRowKey (r : LocationRow) : String × String × String :=
  (r.postalCode, r.city, r.cantonCode)

/-- The key the specification claims for locations: postal code + city +
region code.  Used only to state claims about the spec's wording. -/
def locationSpecKey (l : Location) : String × String × String :=
  (l.postalCode, l.city, l.regionCode)

/-- The new company row inserted by `getOrCreateCompany` when the lookup
finds nothing. -/
def newCompanyRow (db : DBState) (c : Company) : CompanyRow :=
  ⟨db.nextCompanyId, c.name, c.street, c.houseNumber, c.postalCode, c.city,
    c.countryIsoCode, c.phone, c.email, c.website, c.surrogate⟩

/-- Model of `getOrCreateCompany`: look the employer up by natural key; if found,
return its surrogate key, otherwise insert a new row and return the fresh
key.  Returns the key together with the updated state. -/
def getOrCreateCompany (db : DBState) (c : Company) : Nat × DBState :=
  match db.companies.find? (fun r => companyRowKey r = companyKey c) with
  | some r => (r.id, db)
  | none =>
      (db.nextCompanyId,
        { db with companies := db.companies ++ [newCompanyRow db c],
                  nextCompanyId := db.nextCompanyId + 1 })

/-- The new location row inserted by `getOrCreateLocation` when the lookup
finds nothing. -/
def newLocationRow (db : DBState) (l : Location) : LocationRow :=
  ⟨db.nextLocationId, l.remarks, l.city, l.postalCode, l.communalCode,
    l.regionCode, l.cantonCode, l.countryIsoCode, l.coordinates.lat,
    l.coordinates.lon⟩

/-- Model of `getOrCreateLocation`: look the location up by natural key (postal code +
city + canton code); if found, return its surrogate key, otherwise insert a
new row and return the fresh key. -/
def getOrCreateLocation (db : DBState) (l : Location) : Nat × DBState :=
  match db.locations.find? (fun r => locationRowKey r = locationKey l) with
  | some r => (r.id, db)
  | none =>
      (db.nextLocationId,
        { db with locations := db.locations ++ [newLocationRow db l],
                  nextLocationId := db.nextLocationId + 1 })

/-- The `jobs` row written for a payload (both the INSERT values and, via
`EXCLUDED`, the update values of the ON CONFLICT clause). -/
def jobRowOf (job : JobDetail) (companyId locationId : Nat) : JobRow :=
  ⟨job.id, job.createdTime, job.updatedTime, "active", job.sourceSystem,
    job.externalReference, job.stellennummerEgov, job.fingerprint,
    job.reportingObligation, job, companyId, locationId⟩

/-- The parent upsert (`INSERT INTO jobs ... ON CONFLICT (id) DO UPDATE`):
if a row with the natural id exists it is overwritten with the new values
(`created_time` is not in the update list and is kept), otherwise a new row
is appended. -/
def upsertParent (db : DBState) (job : JobDetail) (companyId locationId : Nat) :
    DBState :=
  if db.jobs.any (fun r => r.id = job.id) then
    { db with jobs := db.jobs.map (fun r =>
        if r.id = job.id then
          { jobRowOf job companyId locationId with createdTime := r.createdTime }
        else r) }
  else
    { db with jobs := db.jobs ++ [jobRowOf job companyId locationId] }

/-- Step 6 of `UpsertJob`: DELETE FROM each of the five child tables WHERE
`job_id` equals the record's id. -/
def cleanChildren (db : DBState) (id : String) : DBState :=
  { db with
    employments := db.employments.filter (fun r => ¬ r.jobId = id),
    publications := db.publications.filter (fun r => ¬ r.jobId = id),
    applyChannels := db.applyChannels.filter (fun r => ¬ r.jobId = id),
    jobDescriptions := db.jobDescriptions.filter (fun r => ¬ r.jobId = id),
    occupations := db.occupations.filter (fun r => ¬ r.jobId = id) }

/-- Step 7a: insert the single employment row. -/
def insertEmployment (db : DBState) (job : JobDetail) : DBState :=
  { db with employments :=
      db.employments ++ [⟨job.id, job.jobContent.employment⟩] }

/-- Step 7b: insert the single publication row. -/
def insertPublication (db : DBState) (job : JobDetail) : DBState :=
  { db with publications := db.publications ++ [⟨job.id, job.publication⟩] }

/-- Step 7c: insert the single apply-channel row. -/
def insertApplyChannel (db : DBState) (job : JobDetail) : DBState :=
  { db with applyChannels :=
      db.applyChannels ++ [⟨job.id, job.jobContent.applyChannel⟩] }

/-- One description INSERT with
`ON CONFLICT (job_id, language_iso_code) DO UPDATE`: if a row with the same
(job id, language) exists, its title and description are overwritten,
otherwise a new row is appended. -/
def insertDescription (db : DBState) (id : String) (d : JobDescription) :
    DBState :=
  if db.jobDescriptions.any
      (fun r => r.jobId = id ∧ r.languageIsoCode = d.languageIsoCode) then
    { db with jobDescriptions := db.jobDescriptions.map (fun r =>
        if r.jobId = id ∧ r.languageIsoCode = d.languageIsoCode then
          { r with title := d.title, description := d.description }
        else r) }
  else
    { db with jobDescriptions := db.jobDescriptions ++
        [⟨id, d.languageIsoCode, d.title, d.description⟩] }

/-- Step 7d: insert the description rows in payload order. -/
def insertDescriptions (db : DBState) (id : String) :
    List JobDescription → DBState
  | [] => db
  | d :: rest => insertDescriptions (insertDescription db id d) id rest

/-- Step 7e: insert the occupation rows (plain INSERT, no conflict clause). -/
def insertOccupations (db : DBState) (id : String)
    (occs : List Occupation) : DBState :=
  { db with occupations :=
      db.occupations ++ occs.map (fun o => (⟨id, o⟩ : OccupationRow)) }

/-- Model of `Store.UpsertJob` on the committed (fault-free) path: resolve the
employer and location surrogate keys, upsert the parent row, delete the five
child tables for this record and re-insert them from the payload, all in one
transaction. -/
def upsertJob (db : DBState) (job : JobDetail) : DBState :=
  let rc := getOrCreateCompany db job.jobContent.company
  let rl := getOrCreateLocation rc.2 job.jobContent.location
  let db3 := upsertParent rl.2 job rc.1 rl.1
  let db4 := cleanChildren db3 job.id
  let db5 := insertEmployment db4 job
  let db6 := insertPublication db5 job
  let db7 := insertApplyChannel db6 job
  let db8 := insertDescriptions db7 job.id job.jobContent.jobDescriptions
  insertOccupations db8 job.id job.jobContent.occupations

/-- Model of `Store.GetJobLastUpdated`: the stored `updated_time` of a record, if the
record exists (`found` is `Option.isSome`). -/
def getJobLastUpdated (db : DBState) (id : String) : Option String :=
  (db.jobs.find? (fun r => r.id = id)).map (fun r => r.updatedTime)

/-! ## The transactional upsert with fault injection

`Store.UpsertJob` runs every datastore operation on one transaction `tx`
opened by `BeginTxx`; `defer tx.Rollback()` discards the transaction unless
the final `Commit` succeeds.  To verify the atomicity claim we re-run the
same steps on a transaction snapshot, letting each operation fail according
to a fault oracle indexed by the operation's position in the step sequence
(step 0 is the JSON marshal, step 1 is `BeginTxx`, then one step per SQL
statement, and the last step is `Commit`). -/

/-- One fallible step: consult the fault oracle and advance the counter. -/
def txStep (f : Nat → Bool) (n : Nat) : Except String Nat :=
  if f n then Except.error "operation failed" else Except.ok (n + 1)

/-- Model of `getOrCreateCompany` inside the transaction: one step for the lookup,
and, when the lookup finds nothing, one step for the insert. -/
def getOrCreateCompanyTx (f : Nat → Bool) (n : Nat) (db : DBState)
    (c : Company) : Except String (Nat × Nat × DBState) :=
  match txStep f n with
  | Except.error e => Except.error e
  | Except.ok n1 =>
    match db.companies.find? (fun r => companyRowKey r = companyKey c) with
    | some r => Except.ok (n1, r.id, db)
    | none =>
      match txStep f n1 with
      | Except.error e => Except.error e
      | Except.ok n2 =>
          Except.ok (n2, db.nextCompanyId,
            { db with companies := db.companies ++ [newCompanyRow db c],
                      nextCompanyId := db.nextCompanyId + 1 })

/-- Model of `getOrCreateLocation` inside the transaction. -/
def getOrCreateLocationTx (f : Nat → Bool) (n : Nat) (db : DBState)
    (l : Location) : Except String (Nat × Nat × DBState) :=
  match txStep f n with
  | Except.error e => Except.error e
  | Except.ok n1 =>
    match db.locations.find? (fun r => locationRowKey r = locationKey l) with
    | some r => Except.ok (n1, r.id, db)
    | none =>
      match txStep f n1 with
      | Except.error e => Except.error e
      | Except.ok n2 =>
          Except.ok (n2, db.nextLocationId,
            { db with locations := db.locations ++ [newLocationRow db l],
                      nextLocationId := db.nextLocationId + 1 })

/-- The five child-table DELETE statements, one step each. -/
def cleanChildrenTx (f : Nat → Bool) (n : Nat) (db : DBState) (id : String) :
    Except String (Nat × DBState) :=
  match txStep f n with
  | Except.error e => Except.error e
  | Except.ok n1 =>
    match txStep f n1 with
    | Except.error e => Except.error e
    | Except.ok n2 =>
      match txStep f n2 with
      | Except.error e => Except.error e
      | Except.ok n3 =>
        match txStep f n3 with
        | Except.error e => Except.error e
        | Except.ok n4 =>
          match txStep f n4 with
          | Except.error e => Except.error e
          | Except.ok n5 => Except.ok (n5, cleanChildren db id)

/-- The description INSERT loop, one step per row. -/
def insertDescriptionsTx (f : Nat → Bool) :
    Nat → DBState → String → List JobDescription →
    Except String (Nat × DBState)
  | n, db, _, [] => Except.ok (n, db)
  | n, db, id, d :: rest =>
    match txStep f n with
    | Except.error e => Except.error e
    | Except.ok n1 =>
        insertDescriptionsTx f n1 (insertDescription db id d) id rest

/-- The occupation INSERT loop, one step per row. -/
def insertOccupationsTx (f : Nat → Bool) :
    Nat → DBState → String → List Occupation → Except String (Nat × DBState)
  | n, db, _, [] => Except.ok (n, db)
  | n, db, id, o :: rest =>
    match txStep f n with
    | Except.error e => Except.error e
    | Except.ok n1 =>
        insertOccupationsTx f n1
          { db with occupations := db.occupations ++ [⟨id, o⟩] } id rest

/-- Model of `Store.UpsertJob` with fault injection.  Every effect is applied to the
transaction snapshot; the snapshot becomes the result only when the final
commit step succeeds, so an error at any step discards all effects. -/
def upsertJobTx (db : DBState) (job : JobDetail) (f : Nat → Bool) :
    Except String DBState :=
  match txStep f 0 with
  | Except.error e => Except.error e
  | Except.ok n1 =>
    match txStep f n1 with
    | Except.error e => Except.error e
    | Except.ok n2 =>
      match getOrCreateCompanyTx f n2 db job.jobContent.company with
      | Except.error e => Except.error e
      | Except.ok (n3, companyId, db1) =>
        match getOrCreateLocationTx f n3 db1 job.jobContent.location with
        | Except.error e => Except.error e
        | Except.ok (n4, locationId, db2) =>
          match txStep f n4 with
          | Except.error e => Except.error e
          | Except.ok n5 =>
            let db3 := upsertParent db2 job companyId locationId
            match cleanChildrenTx f n5 db3 job.id with
            | Except.error e => Except.error e
            | Except.ok (n6, db4) =>
              match txStep f n6 with
              | Except.error e => Except.error e
              | Except.ok n7 =>
                let db5 := insertEmployment db4 job
                match txStep f n7 with
                | Except.error e => Except.error e
                | Except.ok n8 =>
                  let db6 := insertPublication db5 job
                  match txStep f n8 with
                  | Except.error e => Except.error e
                  | Except.ok n9 =>
                    let db7 := insertApplyChannel db6 job
                    match insertDescriptionsTx f n9 db7 job.id
                        job.jobContent.jobDescriptions with
                    | Except.error e => Except.error e
                    | Except.ok (n10, db8) =>
                      match insertOccupationsTx f n10 db8 job.id
                          job.jobContent.occupations with
                      | Except.error e => Except.error e
                      | Except.ok (n11, db9) =>
                        match txStep f n11 with
                        | Except.error e => Except.error e
                        | Except.ok _ => Except.ok db9

/-- The datastore state the caller observes after an `UpsertJob` call: the
committed transaction on success, the unchanged previous state on error. -/
def applyUpsertJob (db : DBState) (job : JobDetail) (f : Nat → Bool) :
    DBState :=
  match upsertJobTx db job f with
  | Except.ok d => d
  | Except.error _ => db

/-! ## Fetch client retry loop (client.go)

`fetchJobsWithPOST` and `FetchJobDetail` run the same retry loop
`for attempt := 0; attempt <= MaxRetries; attempt++`, with a delay of
`RetryDelayMs * attempt` milliseconds before every attempt after the first.
The two bodies differ only in how an attempt's outcome is classified, so the
loop is modelled once and instantiated with the two classification
functions translated branch-for-branch from the source. -/

/-- Client configuration (`scraper.ClientConfig`); the politeness fields are
irrelevant to the claims (they only add sleeps). -/
structure ClientConfig where
  maxRetries : Nat
  retryDelayMs : Nat
deriving DecidableEq, Repr

/-- What one HTTP attempt can produce.  `httpErr` is used for non-200
responses; a 200 response produces `readErr`, `parseErr` or `ok`. -/
inductive Attempt (α : Type) where
  | netErr (msg : String)
  | httpErr (status : Nat) (body : String)
  | readErr (msg : String)
  | parseErr (msg : String)
  | ok (value : α)
deriving DecidableEq, Repr

/-- The loop's reaction to one attempt: record an error and retry, or stop
with a final result. -/
inductive StepRes (α : Type) where
  | retry (err : String)
  | stop (res : Except String α)
deriving Repr

/-- The trace of one call to a fetch operation: the final result, how many
attempts were performed, and the sleep durations (ms) taken before retries,
in order. -/
structure FetchOutcome (α : Type) where
  result : Except String α
  attemptsMade : Nat
  delays : List Nat
deriving Repr

/-- The shared retry loop.  `r` is the remaining number of attempts,
`a` the current attempt index, `le` the last recorded error. -/
def retryAux (base : Nat) (step : Nat → StepRes α) :
    Nat → Nat → Option String → List Nat → FetchOutcome α
  | 0, a, le, ds => ⟨Except.error (le.getD ""), a, ds⟩
  | r + 1, a, _, ds =>
    let ds1 := if 0 < a then ds ++ [base * a] else ds
    match step a with
    | StepRes.stop res => ⟨res, a + 1, ds1⟩
    | StepRes.retry e => retryAux base step r (a + 1) (some e) ds1

/-- Run the retry loop as the Go code starts it: attempt 0, up to
`MaxRetries` retries after the first attempt. -/
def retryRun (cfg : ClientConfig) (step : Nat → StepRes α) : FetchOutcome α :=
  retryAux cfg.retryDelayMs step (cfg.maxRetries + 1) 0 none []

/-- Classification of one attempt of `fetchJobsWithPOST`: network and read
errors retry; a non-200 status retries unless it is a 4xx other than 429,
which returns the error immediately; an unmarshal failure returns
immediately; a parsed body returns the page. -/
def classifyList (a : Attempt (List JobDetail)) : StepRes (List JobDetail) :=
  match a with
  | Attempt.netErr m => StepRes.retry ("request failed: " ++ m)
  | Attempt.httpErr s b =>
      if 400 ≤ s ∧ s < 500 ∧ s ≠ 429 then
        StepRes.stop (Except.error
          ("unexpected status " ++ toString s ++ ": " ++ b))
      else
        StepRes.retry ("unexpected status " ++ toString s ++ ": " ++ b)
  | Attempt.readErr m => StepRes.retry ("failed to read response body: " ++ m)
  | Attempt.parseErr m =>
      StepRes.stop (Except.error ("failed to unmarshal response: " ++ m))
  | Attempt.ok v => StepRes.stop (Except.ok v)

/-- Classification of one attempt of `FetchJobDetail`: as for the list
fetch, except that a 404 returns "job not found" immediately (checked before
the generic non-200 branch). -/
def classifyDetail (id : String) (a : Attempt JobDetail) :
    StepRes JobDetail :=
  match a with
  | Attempt.netErr m => StepRes.retry ("request failed: " ++ m)
  | Attempt.httpErr s b =>
      if s = 404 then StepRes.stop (Except.error ("job not found: " ++ id))
      else if 400 ≤ s ∧ s < 500 ∧ s ≠ 429 then
        StepRes.stop (Except.error
          ("unexpected status " ++ toString s ++ ": " ++ b))
      else
        StepRes.retry ("unexpected status " ++ toString s ++ ": " ++ b)
  | Attempt.readErr m => StepRes.retry ("failed to read response body: " ++ m)
  | Attempt.parseErr m =>
      StepRes.stop (Except.error ("failed to unmarshal job detail: " ++ m))
  | Attempt.ok v => StepRes.stop (Except.ok v)

/-- Model of `Client.fetchJobsWithPOST` over an oracle giving each attempt's
outcome. -/
def fetchJobsWithPOST (cfg : ClientConfig)
    (o : Nat → Attempt (List JobDetail)) : FetchOutcome (List JobDetail) :=
  retryRun cfg (fun k => classifyList (o k))

/-- Model of `Client.FetchJobDetail` over an oracle giving each attempt's outcome. -/
def fetchJobDetail (cfg : ClientConfig) (id : String)
    (o : Nat → Attempt JobDetail) : FetchOutcome JobDetail :=
  retryRun cfg (fun k => classifyDetail id (o k))

/-- Whether the loop retries after an attempt with this outcome. -/
def isRetry (s : StepRes α) : Bool :=
  match s with
  | StepRes.retry _ => true
  | StepRes.stop _ => false

/-! ## The run orchestrator (runner.go) -/

/-- Constant `MaxConsecutiveErrors` of runner.go. -/
def maxConsecutiveErrors : Nat := 10

/-- Outcome of one `aiClient.ProcessJob` call. -/
inductive AIOutcome where
  | failed
  | skipped
  | processed
deriving DecidableEq, Repr

/-- The environment a run executes in: the upstream pages, the per-record
detail fetches, fault oracles for the two datastore calls the record loop
makes, the cancellation signal, and the optional enrichment client.  The
per-record oracles are indexed by the value of the processed counter when
the record is examined. -/
structure Env where
  fetchPage : Nat → Except String (List JobDetail)
  fetchDetail : Nat → String → Except String JobDetail
  checkFault : Nat → Bool
  storeFault : Nat → Bool
  cancelAt : Nat → Bool
  aiEnabled : Bool
  aiOutcome : Nat → AIOutcome

/-- Model of `scraper.RunResult`, with two pieces of instrumentation that mirror the
process log: `fetchedPages` records each page for which `FetchJobsWithRequest`
was invoked, and `recordErrors` counts the per-record failures (existence
check, detail fetch, store). -/
structure RunResult where
  status : String
  jobsProcessed : Nat
  jobsInserted : Nat
  jobsUpdated : Nat
  jobsSkipped : Nat
  pagesScraped : Nat
  aiProcessed : Nat
  aiSkipped : Nat
  aiFailed : Nat
  errors : List String
  stopReason : String
  fetchedPages : List Nat
  recordErrors : Nat
deriving DecidableEq, Repr

/-- The result value `Run` starts from: status "completed", all counters
zero. -/
def initResult : RunResult :=
  ⟨"completed", 0, 0, 0, 0, 0, 0, 0, 0, [], "", [], 0⟩

/-- The optional enrichment step (`processJobWithAI`): bump exactly one of
the three AI counters when an AI client is configured. -/
def aiStep (env : Env) (idx : Nat) (res : RunResult) : RunResult :=
  if env.aiEnabled then
    match env.aiOutcome idx with
    | AIOutcome.failed => { res with aiFailed := res.aiFailed + 1 }
    | AIOutcome.skipped => { res with aiSkipped := res.aiSkipped + 1 }
    | AIOutcome.processed => { res with aiProcessed := res.aiProcessed + 1 }
  else res

/-- The per-record loop of `Runner.Run` (lines 162-222).  Returns the
datastore, the result, and whether the incremental cutoff broke out of the
page loop.  The flag `stopScraping` of the source is not modelled separately:
it is set only together with the immediate `break pageLoop`, so its check at
the top of the page loop never observes `true`. -/
def processJobs (env : Env) (strategy : String) :
    List JobDetail → DBState → RunResult → DBState × RunResult × Bool
  | [], db, res => (db, res, false)
  | job :: rest, db, res =>
    let idx := res.jobsProcessed
    let res1 := { res with jobsProcessed := idx + 1 }
    if env.checkFault idx then
      processJobs env strategy rest db
        { res1 with errors := res1.errors ++ ["check " ++ job.id ++ ": error"],
                    recordErrors := res1.recordErrors + 1 }
    else
      let stored := getJobLastUpdated db job.id
      if strategy = "incremental" ∧ stored = some job.updatedTime then
        (db, { res1 with jobsSkipped := res1.jobsSkipped + 1,
                         stopReason := "incremental: up to date" }, true)
      else
        match env.fetchDetail idx job.id with
        | Except.error e =>
            processJobs env strategy rest db
              { res1 with errors := res1.errors ++ ["job " ++ job.id ++ ": " ++ e],
                          recordErrors := res1.recordErrors + 1 }
        | Except.ok detail =>
            if env.storeFault idx then
              processJobs env strategy rest db
                { res1 with
                    errors := res1.errors ++ ["store " ++ job.id ++ ": error"],
                    recordErrors := res1.recordErrors + 1 }
            else
              let db2 := upsertJob db detail
              let res2 :=
                if stored.isSome then
                  { res1 with jobsUpdated := res1.jobsUpdated + 1 }
                else
                  { res1 with jobsInserted := res1.jobsInserted + 1 }
              processJobs env strategy rest db2 (aiStep env idx res2)

/-- The substring test the runner applies to a page-fetch error to recognize
the upstream rate-limit signal. -/
def contains412 (e : String) : Bool :=
  decide ("status 412".toList <:+: e.toList) ||
    decide ("exceed max result limit".toList <:+: e.toList)

/-- Result bookkeeping done right after a successful page fetch:
`PagesScraped++` plus the page-trace instrumentation. -/
def pageEntry (res : RunResult) (page : Nat) : RunResult :=
  { res with pagesScraped := res.pagesScraped + 1,
             fetchedPages := res.fetchedPages ++ [page] }

/-- The page loop of `Runner.Run` (lines 105-223).  `cerr` is the
`consecutiveErrors` counter.  The loop condition
`req.MaxPages == 0 || page < req.StartPage+req.MaxPages` and each stop
condition are translated directly; the `fuel` argument bounds the recursion
and is consumed once per iteration (a run with `MaxPages == 0` has no
a-priori bound on its page count). -/
def runLoop (env : Env) (req : ScrapeRequest) :
    Nat → Nat → Nat → DBState → RunResult → DBState × RunResult
  | 0, _, _, db, res => (db, res)
  | fuel + 1, page, cerr, db, res =>
    if req.maxPages ≠ 0 ∧ req.startPage + req.maxPages ≤ page then (db, res)
    else if env.cancelAt page then
      (db, { res with status := "cancelled", stopReason := "context cancelled" })
    else
      match env.fetchPage page with
      | Except.error e =>
        let res1 := { res with
          errors := res.errors ++ ["page " ++ toString page ++ ": " ++ e],
          fetchedPages := res.fetchedPages ++ [page] }
        if contains412 e then
          (db, { res1 with stopReason := "API limit reached (412)" })
        else if maxConsecutiveErrors ≤ cerr + 1 then
          (db, { res1 with stopReason := "too many consecutive errors",
                           status := "failed" })
        else runLoop env req fuel (page + 1) (cerr + 1) db res1
      | Except.ok jobs =>
        let res1 := pageEntry res page
        if jobs = [] then (db, { res1 with stopReason := "no more jobs" })
        else
          match processJobs env req.strategy jobs db res1 with
          | (db2, res2, true) => (db2, res2)
          | (db2, res2, false) => runLoop env req fuel (page + 1) 0 db2 res2

/-- The deferred finalization of `Runner.Run`: a run that accumulated errors
and inserted and updated nothing is marked failed; then `UpdateRun` persists
the result. -/
def finalizeRun (res : RunResult) : RunResult :=
  if res.errors ≠ [] ∧ res.jobsInserted = 0 ∧ res.jobsUpdated = 0 then
    { res with status := "failed" }
  else res

/-- Model of `Runner.Run`: run the page loop from the requested start page with a
fresh result, then finalize. -/
def runnerRun (env : Env) (req : ScrapeRequest) (fuel : Nat) (db : DBState) :
    DBState × RunResult :=
  let r := runLoop env req fuel req.startPage 0 db initResult
  (r.1, finalizeRun r.2)

/-! ## Derived observations on the datastore -/

/-- The surrogate key `getOrCreateCompany` resolves for an employer payload
against a given state. -/
def usedCompanyId (db : DBState) (c : Company) : Nat :=
  (getOrCreateCompany db c).1

/-- The surrogate key `getOrCreateLocation` resolves for a location payload
against a given state. -/
def usedLocationId (db : DBState) (l : Location) : Nat :=
  (getOrCreateLocation db l).1

/-- The `jobs` rows holding a given natural id. -/
def jobRowsFor (db : DBState) (id : String) : List JobRow :=
  db.jobs.filter (fun r => r.id = id)

/-- The description rows of one record. -/
def descRowsFor (db : DBState) (id : String) : List JobDescriptionRow :=
  db.jobDescriptions.filter (fun r => r.jobId = id)

/-- The employment rows of one record. -/
def employmentRowsFor (db : DBState) (id : String) : List EmploymentRow :=
  db.employments.filter (fun r => r.jobId = id)

/-- The publication rows of one record. -/
def publicationRowsFor (db : DBState) (id : String) : List PublicationRow :=
  db.publications.filter (fun r => r.jobId = id)

/-- The apply-channel rows of one record. -/
def applyRowsFor (db : DBState) (id : String) : List ApplyChannelRow :=
  db.applyChannels.filter (fun r => r.jobId = id)

/-- The occupation rows of one record. -/
def occRowsFor (db : DBState) (id : String) : List OccupationRow :=
  db.occupations.filter (fun r => r.jobId = id)

/-- The description-insert fold restricted to the rows of one record:
what `insertDescriptions` does to `descRowsFor`. -/
def descFoldRows (id : String) :
    List JobDescriptionRow → List JobDescription → List JobDescriptionRow
  | rows, [] => rows
  | rows, d :: rest =>
      descFoldRows id
        (if rows.any (fun r => r.jobId = id ∧ r.languageIsoCode = d.languageIsoCode)
          then rows.map (fun r =>
            if r.jobId = id ∧ r.languageIsoCode = d.languageIsoCode then
              { r with title := d.title, description := d.description }
            else r)
          else rows ++ [⟨id, d.languageIsoCode, d.title, d.description⟩])
        rest

/-- No two employer rows share the natural key name + postal code + city. -/
def companyKeysNodup (db : DBState) : Prop :=
  (db.companies.map companyRowKey).Nodup

/-- Location surrogate keys are pairwise distinct and below the sequence
counter (so a freshly generated key differs from every stored one). -/
def locationIdsOK (db : DBState) : Prop :=
  (db.locations.map LocationRow.id).Nodup ∧
    ∀ r ∈ db.locations, r.id < db.nextLocationId

/-- No two location rows share the natural key postal code + city + canton
code. -/
def locationKeysNodup (db : DBState) : Prop :=
  (db.locations.map locationRowKey).Nodup

/-- Modelled from the spec: the status derivation exactly as claim C7 words
it — errors with zero net writes mean `failed`, a run ending via
cancellation means `cancelled`, and every other run means `completed`.
Whether a run ended via cancellation is observed through its stop reason. -/
def claim7Statement (res : RunResult) : Prop :=
  (res.errors ≠ [] ∧ res.jobsInserted = 0 ∧ res.jobsUpdated = 0 →
    res.status = "failed") ∧
  (res.stopReason = "context cancelled" → res.status = "cancelled") ∧
  (¬(res.errors ≠ [] ∧ res.jobsInserted = 0 ∧ res.jobsUpdated = 0) →
    res.stopReason ≠ "context cancelled" → res.status = "completed")

/-- The statuses a run can carry when the page loop exits, each tied to its
stop cause: `completed` unless cancellation set `cancelled` or the
consecutive-error threshold set `failed`. -/
def preStatusOK (res : RunResult) : Prop :=
  res.status = "completed" ∨
    (res.status = "cancelled" ∧ res.stopReason = "context cancelled") ∨
    (res.status = "failed" ∧ res.stopReason = "too many consecutive errors")

/-- Boolean error test on `Except` (for closed, decidable statements). -/
def exceptIsError : Except ε α → Bool
  | Except.error _ => true
  | Except.ok _ => false

/-! ## Concrete fixtures for witnesses and counterexamples -/

/-- A sample employer. -/
def companyA : Company :=
  ⟨"Acme", "Main St 1", none, "8000", "Zurich", "CH", none, none, none, false⟩

/-- A sample location (canton ZH, region ZH01). -/
def locationA : Location :=
  ⟨none, "Zurich", "8000", "261", "ZH01", "ZH", "CH", ⟨"8.54", "47.37"⟩⟩

/-- The same postal code, city and region code as `locationA`, but a
different canton code. -/
def locationB : Location :=
  ⟨none, "Zurich", "8000", "261", "ZH01", "BE", "CH", ⟨"8.54", "47.37"⟩⟩

/-- A sample employment payload. -/
def employmentA : Employment := ⟨none, none, false, false, true, "80", "100"⟩

/-- A sample publication payload. -/
def publicationA : Publication :=
  ⟨"2024-01-01", "2024-12-31", false, true, none, none⟩

/-- A sample apply channel. -/
def applyChannelA : ApplyChannel := ⟨none, none, some "hr", none, none, none⟩

/-- A sample occupation. -/
def occupationA : Occupation := ⟨"101", "MORE_THAN_1_YEAR", none, none⟩

/-- Job content with a single German description. -/
def contentA : JobContent :=
  ⟨"", "1", [⟨"de", "T", "D"⟩], companyA, employmentA, locationA,
    [occupationA], applyChannelA⟩

/-- A sample record. -/
def jobA : JobDetail :=
  ⟨"j1", "c1", "u1", "ACTIVE", "JOBROOM", "", "", none, false, contentA,
    publicationA⟩

/-- A record whose payload carries two descriptions with the same language
code. -/
def jobDup : JobDetail :=
  ⟨"j2", "c2", "u2", "ACTIVE", "JOBROOM", "", "", none, false,
    ⟨"", "1", [⟨"de", "T1", "D1"⟩, ⟨"de", "T2", "D2"⟩], companyA,
      employmentA, locationA, [occupationA], applyChannelA⟩,
    publicationA⟩

/-- A second record referencing `locationB` (same postal code, city and
region code as `jobA`'s location, different canton code). -/
def jobB : JobDetail :=
  ⟨"j3", "c3", "u3", "ACTIVE", "JOBROOM", "", "", none, false,
    ⟨"", "1", [⟨"fr", "T", "D"⟩], companyA, employmentA, locationB,
      [occupationA], applyChannelA⟩,
    publicationA⟩

/-- A record carrying three descriptions in distinct languages. -/
def job3L : JobDetail :=
  ⟨"j4", "c4", "u4", "ACTIVE", "JOBROOM", "", "", none, false,
    ⟨"", "1", [⟨"de", "T", "D"⟩, ⟨"fr", "T", "D"⟩, ⟨"it", "T", "D"⟩],
      companyA, employmentA, locationA, [occupationA], applyChannelA⟩,
    publicationA⟩

/-- The same record as `job3L` after its description set shrank to one
language. -/
def job1L : JobDetail :=
  ⟨"j4", "c4", "u5", "ACTIVE", "JOBROOM", "", "", none, false,
    ⟨"", "1", [⟨"de", "T", "D"⟩], companyA, employmentA, locationA,
      [occupationA], applyChannelA⟩,
    publicationA⟩

/-- An environment whose record-level oracles never fail and whose AI client
is disabled. -/
def quietOracles : Env :=
  ⟨fun _ => Except.ok [], fun _ id =>
      if id = "j1" then Except.ok jobA
      else if id = "j2" then Except.ok jobDup
      else if id = "j3" then Except.ok jobB
      else Except.error "no detail",
    fun _ => false, fun _ => false, fun _ => false, false,
    fun _ => AIOutcome.processed⟩

/-- Counterexample environment for C7: page 0 delivers one new record, every
later page fails with an ordinary error, so the run inserts one record and
then hits the consecutive-error threshold. -/
def envC7 : Env :=
  { quietOracles with fetchPage := fun page =>
      if page = 0 then Except.ok [jobA] else Except.error "boom" }

/-- Counterexample environment for C8: page 0 delivers one new record, pages
1 through 9 fail with ordinary errors, page 10 fails with the rate-limit
signal — ten consecutive page-fetch failures whose last carries the 412
marker. -/
def envC8 : Env :=
  { quietOracles with fetchPage := fun page =>
      if page = 0 then Except.ok [jobA]
      else if page = 10 then Except.error "unexpected status 412: limit"
      else Except.error "boom" }

/-- Witness environment for C8: every page fetch fails with an ordinary
error. -/
def envAllFail : Env :=
  { quietOracles with fetchPage := fun _ => Except.error "boom" }

/-- Witness environment for C1: the store already holds `jobA` and page 0
returns it unchanged, so an incremental run cuts off at position 0. -/
def envC1 : Env :=
  { quietOracles with fetchPage := fun page =>
      if page = 0 then Except.ok [jobA] else Except.ok [] }

/-- An unlimited incremental request starting at page 0. -/
def reqIncremental : ScrapeRequest := ⟨"incremental", 0, 0⟩

/-- An unlimited full request starting at page 0. -/
def reqFull : ScrapeRequest := ⟨"full", 0, 0⟩

/-- Retry configuration for the client witness: the defaults
(3 retries, 1000 ms base delay). -/
def cfgW : ClientConfig := ⟨3, 1000⟩

/-- Witness attempt oracle for the page fetch: a network error, then a 500,
then success. -/
def oListW : Nat → Attempt (List JobDetail) := fun k =>
  if k = 0 then Attempt.netErr "refused"
  else if k = 1 then Attempt.httpErr 500 "server error"
  else Attempt.ok [jobA]

/-- Witness attempt oracle for the detail fetch: an immediate 403. -/
def oDetailW : Nat → Attempt JobDetail := fun _ =>
  Attempt.httpErr 403 "forbidden"

/-! ## Lemmas about the retry loop -/

theorem retryAux_attempts_ge (base : Nat) (step : Nat → StepRes α) :
    ∀ (r a : Nat) (le : Option String) (ds : List Nat),
      a ≤ (retryAux base step r a le ds).attemptsMade := by
  intro r
  induction r with
  | zero => intro a le ds; simp [retryAux]
  | succ r ih =>
    intro a le ds
    simp only [retryAux]
    cases step a with
    | stop res => simp
    | retry e => exact Nat.le_trans (Nat.le_succ a) (ih (a + 1) (some e) _)

theorem retryAux_attempts_ge_succ (base : Nat) (step : Nat → StepRes α) :
    ∀ (r a : Nat) (le : Option String) (ds : List Nat), 1 ≤ r →
      a + 1 ≤ (retryAux base step r a le ds).attemptsMade := by
  intro r a le ds hr
  match r, hr with
  | r + 1, _ =>
    simp only [retryAux]
    cases step a with
    | stop res => simp
    | retry e => exact retryAux_attempts_ge base step r (a + 1) (some e) _

theorem retryAux_attempts_le (base : Nat) (step : Nat → StepRes α) :
    ∀ (r a : Nat) (le : Option String) (ds : List Nat),
      (retryAux base step r a le ds).attemptsMade ≤ a + r := by
  intro r
  induction r with
  | zero => intro a le ds; simp [retryAux]
  | succ r ih =>
    intro a le ds
    simp only [retryAux]
    cases step a with
    | stop res => simp
    | retry e =>
      dsimp only
      have := ih (a + 1) (some e)
        (if 0 < a then ds ++ [base * a] else ds)
      omega

theorem retryAux_delays (base : Nat) (step : Nat → StepRes α) :
    ∀ (r a : Nat) (le : Option String) (ds : List Nat), 1 ≤ a →
      (retryAux base step r a le ds).delays =
        ds ++ (List.range' a ((retryAux base step r a le ds).attemptsMade - a)).map
          (fun t => base * t) := by
  intro r
  induction r with
  | zero => intro a le ds _; simp [retryAux]
  | succ r ih =>
    intro a le ds ha
    simp only [retryAux]
    cases step a with
    | stop res =>
      simp only
      have : a + 1 - a = 1 := by omega
      simp [this, List.range'_succ, Nat.pos_of_ne_zero, ha, Nat.lt_of_lt_of_le Nat.zero_lt_one ha]
    | retry e =>
      simp only
      have hpos : (0 < a) = True := by simp [Nat.lt_of_lt_of_le Nat.zero_lt_one ha]
      rw [if_pos (by omega : 0 < a)]
      have hge := retryAux_attempts_ge_succ base step r (a + 1) (some e)
        (ds ++ [base * a])
      have hrec := ih (a + 1) (some e) (ds ++ [base * a]) (by omega)
      rw [hrec]
      by_cases hr : 1 ≤ r
      · have hge2 := hge hr
        have hsub : (retryAux base step r (a + 1) (some e)
            (ds ++ [base * a])).attemptsMade - a =
            ((retryAux base step r (a + 1) (some e)
              (ds ++ [base * a])).attemptsMade - (a + 1)) + 1 := by omega
        rw [hsub, List.range'_succ]
        simp
      · have hr0 : r = 0 := by omega
        subst hr0
        simp [retryAux]

theorem retryAux_stop (base : Nat) (step : Nat → StepRes α)
    (res : Except String α) :
    ∀ (k r a : Nat) (le : Option String) (ds : List Nat), k < r →
      (∀ j, j < k → isRetry (step (a + j)) = true) →
      step (a + k) = StepRes.stop res →
      (retryAux base step r a le ds).result = res ∧
        (retryAux base step r a le ds).attemptsMade = a + k + 1 := by
  intro k
  induction k with
  | zero =>
    intro r a le ds hr _ hstop
    match r, hr with
    | r + 1, _ =>
      simp only [retryAux]
      rw [show a + 0 = a from rfl] at hstop
      rw [hstop]
      exact ⟨rfl, rfl⟩
  | succ k ih =>
    intro r a le ds hr hretry hstop
    match r, hr with
    | r + 1, _ =>
      simp only [retryAux]
      have h0 : isRetry (step a) = true := by
        have := hretry 0 (Nat.succ_pos k)
        simpa using this
      cases hs : step a with
      | stop res' => rw [hs] at h0; simp [isRetry] at h0
      | retry e =>
        have hrec := ih r (a + 1) (some e)
          (if 0 < a then ds ++ [base * a] else ds)
          (by omega)
          (fun j hj => by
            have := hretry (j + 1) (by omega)
            rw [show a + 1 + j = a + (j + 1) by omega]
            exact this)
          (by rw [show a + 1 + k = a + (k + 1) by omega]; exact hstop)
        exact ⟨hrec.1, by rw [hrec.2]; omega⟩

theorem retryAux_continues (base : Nat) (step : Nat → StepRes α) :
    ∀ (k r a : Nat) (le : Option String) (ds : List Nat), k + 1 < r →
      (∀ j, j ≤ k → isRetry (step (a + j)) = true) →
      a + k + 2 ≤ (retryAux base step r a le ds).attemptsMade := by
  intro k
  induction k with
  | zero =>
    intro r a le ds hr hretry
    match r, hr with
    | r + 1, _ =>
      simp only [retryAux]
      have h0 : isRetry (step a) = true := by simpa using hretry 0 (Nat.le_refl 0)
      cases hs : step a with
      | stop res' => rw [hs] at h0; simp [isRetry] at h0
      | retry e =>
        dsimp only
        have := retryAux_attempts_ge_succ base step r (a + 1) (some e)
          (if 0 < a then ds ++ [base * a] else ds) (by omega)
        omega
  | succ k ih =>
    intro r a le ds hr hretry
    match r, hr with
    | r + 1, _ =>
      simp only [retryAux]
      have h0 : isRetry (step a) = true := by simpa using hretry 0 (Nat.zero_le _)
      cases hs : step a with
      | stop res' => rw [hs] at h0; simp [isRetry] at h0
      | retry e =>
        dsimp only
        have := ih r (a + 1) (some e)
          (if 0 < a then ds ++ [base * a] else ds)
          (by omega)
          (fun j hj => by
            have := hretry (j + 1) (by omega)
            rw [show a + 1 + j = a + (j + 1) by omega]
            exact this)
        omega

theorem retryRun_delays (cfg : ClientConfig) (step : Nat → StepRes α) :
    (retryRun cfg step).delays =
      (List.range' 1 ((retryRun cfg step).attemptsMade - 1)).map
        (fun t => cfg.retryDelayMs * t) := by
  unfold retryRun
  simp only [retryAux]
  cases hs : step 0 with
  | stop res => simp
  | retry e =>
    simp only [if_neg (by omega : ¬ 0 < 0)]
    exact retryAux_delays cfg.retryDelayMs step cfg.maxRetries 1 (some e) []
      (Nat.le_refl 1)

theorem retryRun_stop (cfg : ClientConfig) (step : Nat → StepRes α)
    (res : Except String α) (k : Nat) (hk : k ≤ cfg.maxRetries)
    (hretry : ∀ j, j < k → isRetry (step j) = true)
    (hstop : step k = StepRes.stop res) :
    (retryRun cfg step).result = res ∧
      (retryRun cfg step).attemptsMade = k + 1 := by
  have := retryAux_stop cfg.retryDelayMs step res k (cfg.maxRetries + 1) 0
    none [] (by omega) (fun j hj => by simpa using hretry j hj)
    (by simpa using hstop)
  simpa [retryRun] using this

theorem retryRun_continues (cfg : ClientConfig) (step : Nat → StepRes α)
    (k : Nat) (hk : k < cfg.maxRetries)
    (hretry : ∀ j, j ≤ k → isRetry (step j) = true) :
    k + 2 ≤ (retryRun cfg step).attemptsMade := by
  have := retryAux_continues cfg.retryDelayMs step k (cfg.maxRetries + 1) 0
    none [] (by omega) (fun j hj => by simpa using hretry j hj)
  simpa [retryRun] using this

/-- C9: both fetch operations retry a failed request up to the configured
maximum attempt count, sleeping `attempt × baseDelay` before retry number
`attempt`; a 4xx response other than 429 is returned immediately as an error
without further attempts; network errors, 5xx responses and 429 responses
are retried. -/
theorem claim_C9_retryPolicy (cfg : ClientConfig)
    (ol : Nat → Attempt (List JobDetail)) (od : Nat → Attempt JobDetail)
    (id : String) :
    (fetchJobsWithPOST cfg ol).attemptsMade ≤ cfg.maxRetries + 1 ∧
    (fetchJobDetail cfg id od).attemptsMade ≤ cfg.maxRetries + 1 ∧
    (fetchJobsWithPOST cfg ol).delays =
      (List.range' 1 ((fetchJobsWithPOST cfg ol).attemptsMade - 1)).map
        (fun t => cfg.retryDelayMs * t) ∧
    (fetchJobDetail cfg id od).delays =
      (List.range' 1 ((fetchJobDetail cfg id od).attemptsMade - 1)).map
        (fun t => cfg.retryDelayMs * t) ∧
    (∀ k s b, k ≤ cfg.maxRetries →
      (∀ j, j < k → isRetry (classifyList (ol j)) = true) →
      ol k = Attempt.httpErr s b → 400 ≤ s → s < 500 → s ≠ 429 →
      (fetchJobsWithPOST cfg ol).result =
        Except.error ("unexpected status " ++ toString s ++ ": " ++ b) ∧
      (fetchJobsWithPOST cfg ol).attemptsMade = k + 1) ∧
    (∀ k s b, k ≤ cfg.maxRetries →
      (∀ j, j < k → isRetry (classifyDetail id (od j)) = true) →
      od k = Attempt.httpErr s b → 400 ≤ s → s < 500 → s ≠ 429 →
      exceptIsError (fetchJobDetail cfg id od).result = true ∧
      (fetchJobDetail cfg id od).attemptsMade = k + 1) ∧
    (∀ k, k < cfg.maxRetries →
      (∀ j, j ≤ k → isRetry (classifyList (ol j)) = true) →
      k + 2 ≤ (fetchJobsWithPOST cfg ol).attemptsMade) ∧
    (∀ k, k < cfg.maxRetries →
      (∀ j, j ≤ k → isRetry (classifyDetail id (od j)) = true) →
      k + 2 ≤ (fetchJobDetail cfg id od).attemptsMade) ∧
    (∀ m b s, isRetry (classifyList (Attempt.netErr m)) = true ∧
      isRetry (classifyList (Attempt.readErr m)) = true ∧
      (500 ≤ s → isRetry (classifyList (Attempt.httpErr s b)) = true) ∧
      isRetry (classifyList (Attempt.httpErr 429 b)) = true ∧
      isRetry (classifyDetail id (Attempt.netErr m)) = true ∧
      (500 ≤ s → isRetry (classifyDetail id (Attempt.httpErr s b)) = true) ∧
      isRetry (classifyDetail id (Attempt.httpErr 429 b)) = true) := by
  refine ⟨?_, ?_, ?_, ?_, ?_, ?_, ?_, ?_, ?_⟩
  · simpa [fetchJobsWithPOST, retryRun] using
      retryAux_attempts_le cfg.retryDelayMs (fun k => classifyList (ol k))
        (cfg.maxRetries + 1) 0 none []
  · simpa [fetchJobDetail, retryRun] using
      retryAux_attempts_le cfg.retryDelayMs
        (fun k => classifyDetail id (od k)) (cfg.maxRetries + 1) 0 none []
  · exact retryRun_delays cfg (fun k => classifyList (ol k))
  · exact retryRun_delays cfg (fun k => classifyDetail id (od k))
  · intro k s b hk hretry hout h400 h500 h429
    have hstop : classifyList (ol k) = StepRes.stop (Except.error
        ("unexpected status " ++ toString s ++ ": " ++ b)) := by
      rw [hout]
      simp [classifyList, if_pos (⟨h400, h500, h429⟩ :
        400 ≤ s ∧ s < 500 ∧ s ≠ 429)]
    exact retryRun_stop cfg (fun k => classifyList (ol k)) _ k hk hretry hstop
  · intro k s b hk hretry hout h400 h500 h429
    by_cases h404 : s = 404
    · have hstop : classifyDetail id (od k) = StepRes.stop (Except.error
          ("job not found: " ++ id)) := by
        rw [hout, h404]; simp [classifyDetail]
      have := retryRun_stop cfg (fun k => classifyDetail id (od k)) _ k hk
        hretry hstop
      exact ⟨by rw [show (fetchJobDetail cfg id od).result = _ from this.1]; rfl,
        this.2⟩
    · have hstop : classifyDetail id (od k) = StepRes.stop (Except.error
          ("unexpected status " ++ toString s ++ ": " ++ b)) := by
        rw [hout]
        simp [classifyDetail, if_neg h404, if_pos (⟨h400, h500, h429⟩ :
          400 ≤ s ∧ s < 500 ∧ s ≠ 429)]
      have := retryRun_stop cfg (fun k => classifyDetail id (od k)) _ k hk
        hretry hstop
      exact ⟨by rw [show (fetchJobDetail cfg id od).result = _ from this.1]; rfl,
        this.2⟩
  · intro k hk hretry
    exact retryRun_continues cfg (fun k => classifyList (ol k)) k hk hretry
  · intro k hk hretry
    exact retryRun_continues cfg (fun k => classifyDetail id (od k)) k hk hretry
  · intro m b s
    refine ⟨rfl, rfl, ?_, ?_, rfl, ?_, ?_⟩
    · intro hs
      simp [classifyList, isRetry, if_neg (by omega :
        ¬(400 ≤ s ∧ s < 500 ∧ s ≠ 429))]
    · simp [classifyList, isRetry]
    · intro hs
      simp [classifyDetail, isRetry, if_neg (by omega : ¬ s = 404),
        if_neg (by omega : ¬(400 ≤ s ∧ s < 500 ∧ s ≠ 429))]
    · simp [classifyDetail, isRetry]

/-- Witness for C9 at the default configuration: a network error followed by
a 500 keeps the list fetch going past attempt 1, and an immediate 403 ends
the detail fetch after exactly one attempt with an error. -/
theorem claim_C9_retryPolicy_witness :
    (0 + 2 ≤ (fetchJobsWithPOST cfgW oListW).attemptsMade) ∧
    exceptIsError (fetchJobDetail cfgW "j1" oDetailW).result = true ∧
    (fetchJobDetail cfgW "j1" oDetailW).attemptsMade = 0 + 1 := by
  have h := claim_C9_retryPolicy cfgW oListW oDetailW "j1"
  have hcont := h.2.2.2.2.2.2.1 0 (by decide)
    (fun j hj => by
      have hj0 : j = 0 := Nat.le_zero.mp hj
      subst hj0; decide)
  have hstop := h.2.2.2.2.2.1 0 403 "forbidden" (by decide)
    (fun j hj => absurd hj (Nat.not_lt_zero j)) rfl (by decide) (by decide)
    (by decide)
  exact ⟨hcont, hstop.1, hstop.2⟩

/-! ## Which fields each store stage leaves unchanged -/

@[simp] theorem getOrCreateCompany_jobs (db : DBState) (c : Company) :
    ((getOrCreateCompany db c).2).jobs = db.jobs := by
  unfold getOrCreateCompany
  cases db.companies.find? (fun r => companyRowKey r = companyKey c) <;> rfl

@[simp] theorem getOrCreateCompany_locations (db : DBState) (c : Company) :
    ((getOrCreateCompany db c).2).locations = db.locations := by
  unfold getOrCreateCompany
  cases db.companies.find? (fun r => companyRowKey r = companyKey c) <;> rfl

@[simp] theorem getOrCreateCompany_employments (db : DBState) (c : Company) :
    ((getOrCreateCompany db c).2).employments = db.employments := by
  unfold getOrCreateCompany
  cases db.companies.find? (fun r => companyRowKey r = companyKey c) <;> rfl

@[simp] theorem getOrCreateCompany_publications (db : DBState) (c : Company) :
    ((getOrCreateCompany db c).2).publications = db.publications := by
  unfold getOrCreateCompany
  cases db.companies.find? (fun r => companyRowKey r = companyKey c) <;> rfl

@[simp] theorem getOrCreateCompany_applyChannels (db : DBState) (c : Company) :
    ((getOrCreateCompany db c).2).applyChannels = db.applyChannels := by
  unfold getOrCreateCompany
  cases db.companies.find? (fun r => companyRowKey r = companyKey c) <;> rfl

@[simp] theorem getOrCreateCompany_jobDescriptions (db : DBState) (c : Company) :
    ((getOrCreateCompany db c).2).jobDescriptions = db.jobDescriptions := by
  unfold getOrCreateCompany
  cases db.companies.find? (fun r => companyRowKey r = companyKey c) <;> rfl

@[simp] theorem getOrCreateCompany_occupations (db : DBState) (c : Company) :
    ((getOrCreateCompany db c).2).occupations = db.occupations := by
  unfold getOrCreateCompany
  cases db.companies.find? (fun r => companyRowKey r = companyKey c) <;> rfl

@[simp] theorem getOrCreateCompany_nextLocationId (db : DBState) (c : Company) :
    ((getOrCreateCompany db c).2).nextLocationId = db.nextLocationId := by
  unfold getOrCreateCompany
  cases db.companies.find? (fun r => companyRowKey r = companyKey c) <;> rfl

@[simp] theorem getOrCreateLocation_jobs (db : DBState) (l : Location) :
    ((getOrCreateLocation db l).2).jobs = db.jobs := by
  unfold getOrCreateLocation
  cases db.locations.find? (fun r => locationRowKey r = locationKey l) <;> rfl

@[simp] theorem getOrCreateLocation_companies (db : DBState) (l : Location) :
    ((getOrCreateLocation db l).2).companies = db.companies := by
  unfold getOrCreateLocation
  cases db.locations.find? (fun r => locationRowKey r = locationKey l) <;> rfl

@[simp] theorem getOrCreateLocation_employments (db : DBState) (l : Location) :
    ((getOrCreateLocation db l).2).employments = db.employments := by
  unfold getOrCreateLocation
  cases db.locations.find? (fun r => locationRowKey r = locationKey l) <;> rfl

@[simp] theorem getOrCreateLocation_publications (db : DBState) (l : Location) :
    ((getOrCreateLocation db l).2).publications = db.publications := by
  unfold getOrCreateLocation
  cases db.locations.find? (fun r => locationRowKey r = locationKey l) <;> rfl

@[simp] theorem getOrCreateLocation_applyChannels (db : DBState) (l : Location) :
    ((getOrCreateLocation db l).2).applyChannels = db.applyChannels := by
  unfold getOrCreateLocation
  cases db.locations.find? (fun r => locationRowKey r = locationKey l) <;> rfl

@[simp] theorem getOrCreateLocation_jobDescriptions (db : DBState) (l : Location) :
    ((getOrCreateLocation db l).2).jobDescriptions = db.jobDescriptions := by
  unfold getOrCreateLocation
  cases db.locations.find? (fun r => locationRowKey r = locationKey l) <;> rfl

@[simp] theorem getOrCreateLocation_occupations (db : DBState) (l : Location) :
    ((getOrCreateLocation db l).2).occupations = db.occupations := by
  unfold getOrCreateLocation
  cases db.locations.find? (fun r => locationRowKey r = locationKey l) <;> rfl

@[simp] theorem getOrCreateLocation_nextCompanyId (db : DBState) (l : Location) :
    ((getOrCreateLocation db l).2).nextCompanyId = db.nextCompanyId := by
  unfold getOrCreateLocation
  cases db.locations.find? (fun r => locationRowKey r = locationKey l) <;> rfl

@[simp] theorem upsertParent_companies (db : DBState) (job : JobDetail) (cid lid : Nat) :
    ((upsertParent db job cid lid)).companies = db.companies := by
  unfold upsertParent
  split <;> rfl

@[simp] theorem upsertParent_locations (db : DBState) (job : JobDetail) (cid lid : Nat) :
    ((upsertParent db job cid lid)).locations = db.locations := by
  unfold upsertParent
  split <;> rfl

@[simp] theorem upsertParent_employments (db : DBState) (job : JobDetail) (cid lid : Nat) :
    ((upsertParent db job cid lid)).employments = db.employments := by
  unfold upsertParent
  split <;> rfl

@[simp] theorem upsertParent_publications (db : DBState) (job : JobDetail) (cid lid : Nat) :
    ((upsertParent db job cid lid)).publications = db.publications := by
  unfold upsertParent
  split <;> rfl

@[simp] theorem upsertParent_applyChannels (db : DBState) (job : JobDetail) (cid lid : Nat) :
    ((upsertParent db job cid lid)).applyChannels = db.applyChannels := by
  unfold upsertParent
  split <;> rfl

@[simp] theorem upsertParent_jobDescriptions (db : DBState) (job : JobDetail) (cid lid : Nat) :
    ((upsertParent db job cid lid)).jobDescriptions = db.jobDescriptions := by
  unfold upsertParent
  split <;> rfl

@[simp] theorem upsertParent_occupations (db : DBState) (job : JobDetail) (cid lid : Nat) :
    ((upsertParent db job cid lid)).occupations = db.occupations := by
  unfold upsertParent
  split <;> rfl

@[simp] theorem upsertParent_nextCompanyId (db : DBState) (job : JobDetail) (cid lid : Nat) :
    ((upsertParent db job cid lid)).nextCompanyId = db.nextCompanyId := by
  unfold upsertParent
  split <;> rfl

@[simp] theorem upsertParent_nextLocationId (db : DBState) (job : JobDetail) (cid lid : Nat) :
    ((upsertParent db job cid lid)).nextLocationId = db.nextLocationId := by
  unfold upsertParent
  split <;> rfl

@[simp] theorem cleanChildren_jobs (db : DBState) (id : String) :
    ((cleanChildren db id)).jobs = db.jobs := by
  rfl

@[simp] theorem cleanChildren_companies (db : DBState) (id : String) :
    ((cleanChildren db id)).companies = db.companies := by
  rfl

@[simp] theorem cleanChildren_locations (db : DBState) (id : String) :
    ((cleanChildren db id)).locations = db.locations := by
  rfl

@[simp] theorem cleanChildren_nextCompanyId (db : DBState) (id : String) :
    ((cleanChildren db id)).nextCompanyId = db.nextCompanyId := by
  rfl

@[simp] theorem cleanChildren_nextLocationId (db : DBState) (id : String) :
    ((cleanChildren db id)).nextLocationId = db.nextLocationId := by
  rfl

@[simp] theorem insertEmployment_jobs (db : DBState) (job : JobDetail) :
    ((insertEmployment db job)).jobs = db.jobs := by
  rfl

@[simp] theorem insertEmployment_companies (db : DBState) (job : JobDetail) :
    ((insertEmployment db job)).companies = db.companies := by
  rfl

@[simp] theorem insertEmployment_locations (db : DBState) (job : JobDetail) :
    ((insertEmployment db job)).locations = db.locations := by
  rfl

@[simp] theorem insertEmployment_publications (db : DBState) (job : JobDetail) :
    ((insertEmployment db job)).publications = db.publications := by
  rfl

@[simp] theorem insertEmployment_applyChannels (db : DBState) (job : JobDetail) :
    ((insertEmployment db job)).applyChannels = db.applyChannels := by
  rfl

@[simp] theorem insertEmployment_jobDescriptions (db : DBState) (job : JobDetail) :
    ((insertEmployment db job)).jobDescriptions = db.jobDescriptions := by
  rfl

@[simp] theorem insertEmployment_occupations (db : DBState) (job : JobDetail) :
    ((insertEmployment db job)).occupations = db.occupations := by
  rfl

@[simp] theorem insertEmployment_nextCompanyId (db : DBState) (job : JobDetail) :
    ((insertEmployment db job)).nextCompanyId = db.nextCompanyId := by
  rfl

@[simp] theorem insertEmployment_nextLocationId (db : DBState) (job : JobDetail) :
    ((insertEmployment db job)).nextLocationId = db.nextLocationId := by
  rfl

@[simp] theorem insertPublication_jobs (db : DBState) (job : JobDetail) :
    ((insertPublication db job)).jobs = db.jobs := by
  rfl

@[simp] theorem insertPublication_companies (db : DBState) (job : JobDetail) :
    ((insertPublication db job)).companies = db.companies := by
  rfl

@[simp] theorem insertPublication_locations (db : DBState) (job : JobDetail) :
    ((insertPublication db job)).locations = db.locations := by
  rfl

@[simp] theorem insertPublication_employments (db : DBState) (job : JobDetail) :
    ((insertPublication db job)).employments = db.employments := by
  rfl

@[simp] theorem insertPublication_applyChannels (db : DBState) (job : JobDetail) :
    ((insertPublication db job)).applyChannels = db.applyChannels := by
  rfl

@[simp] theorem insertPublication_jobDescriptions (db : DBState) (job : JobDetail) :
    ((insertPublication db job)).jobDescriptions = db.jobDescriptions := by
  rfl

@[simp] theorem insertPublication_occupations (db : DBState) (job : JobDetail) :
    ((insertPublication db job)).occupations = db.occupations := by
  rfl

@[simp] theorem insertPublication_nextCompanyId (db : DBState) (job : JobDetail) :
    ((insertPublication db job)).nextCompanyId = db.nextCompanyId := by
  rfl

@[simp] theorem insertPublication_nextLocationId (db : DBState) (job : JobDetail) :
    ((insertPublication db job)).nextLocationId = db.nextLocationId := by
  rfl

@[simp] theorem insertApplyChannel_jobs (db : DBState) (job : JobDetail) :
    ((insertApplyChannel db job)).jobs = db.jobs := by
  rfl

@[simp] theorem insertApplyChannel_companies (db : DBState) (job : JobDetail) :
    ((insertApplyChannel db job)).companies = db.companies := by
  rfl

@[simp] theorem insertApplyChannel_locations (db : DBState) (job : JobDetail) :
    ((insertApplyChannel db job)).locations = db.locations := by
  rfl

@[simp] theorem insertApplyChannel_employments (db : DBState) (job : JobDetail) :
    ((insertApplyChannel db job)).employments = db.employments := by
  rfl

@[simp] theorem insertApplyChannel_publications (db : DBState) (job : JobDetail) :
    ((insertApplyChannel db job)).publications = db.publications := by
  rfl

@[simp] theorem insertApplyChannel_jobDescriptions (db : DBState) (job : JobDetail) :
    ((insertApplyChannel db job)).jobDescriptions = db.jobDescriptions := by
  rfl

@[simp] theorem insertApplyChannel_occupations (db : DBState) (job : JobDetail) :
    ((insertApplyChannel db job)).occupations = db.occupations := by
  rfl

@[simp] theorem insertApplyChannel_nextCompanyId (db : DBState) (job : JobDetail) :
    ((insertApplyChannel db job)).nextCompanyId = db.nextCompanyId := by
  rfl

@[simp] theorem insertApplyChannel_nextLocationId (db : DBState) (job : JobDetail) :
    ((insertApplyChannel db job)).nextLocationId = db.nextLocationId := by
  rfl

@[simp] theorem insertDescription_jobs (db : DBState) (id : String) (d : JobDescription) :
    ((insertDescription db id d)).jobs = db.jobs := by
  unfold insertDescription
  split <;> rfl

@[simp] theorem insertDescription_companies (db : DBState) (id : String) (d : JobDescription) :
    ((insertDescription db id d)).companies = db.companies := by
  unfold insertDescription
  split <;> rfl

@[simp] theorem insertDescription_locations (db : DBState) (id : String) (d : JobDescription) :
    ((insertDescription db id d)).locations = db.locations := by
  unfold insertDescription
  split <;> rfl

@[simp] theorem insertDescription_employments (db : DBState) (id : String) (d : JobDescription) :
    ((insertDescription db id d)).employments = db.employments := by
  unfold insertDescription
  split <;> rfl

@[simp] theorem insertDescription_publications (db : DBState) (id : String) (d : JobDescription) :
    ((insertDescription db id d)).publications = db.publications := by
  unfold insertDescription
  split <;> rfl

@[simp] theorem insertDescription_applyChannels (db : DBState) (id : String) (d : JobDescription) :
    ((insertDescription db id d)).applyChannels = db.applyChannels := by
  unfold insertDescription
  split <;> rfl

@[simp] theorem insertDescription_occupations (db : DBState) (id : String) (d : JobDescription) :
    ((insertDescription db id d)).occupations = db.occupations := by
  unfold insertDescription
  split <;> rfl

@[simp] theorem insertDescription_nextCompanyId (db : DBState) (id : String) (d : JobDescription) :
    ((insertDescription db id d)).nextCompanyId = db.nextCompanyId := by
  unfold insertDescription
  split <;> rfl

@[simp] theorem insertDescription_nextLocationId (db : DBState) (id : String) (d : JobDescription) :
    ((insertDescription db id d)).nextLocationId = db.nextLocationId := by
  unfold insertDescription
  split <;> rfl

@[simp] theorem insertOccupations_jobs (db : DBState) (id : String) (os : List Occupation) :
    ((insertOccupations db id os)).jobs = db.jobs := by
  rfl

@[simp] theorem insertOccupations_companies (db : DBState) (id : String) (os : List Occupation) :
    ((insertOccupations db id os)).companies = db.companies := by
  rfl

@[simp] theorem insertOccupations_locations (db : DBState) (id : String) (os : List Occupation) :
    ((insertOccupations db id os)).locations = db.locations := by
  rfl

@[simp] theorem insertOccupations_employments (db : DBState) (id : String) (os : List Occupation) :
    ((insertOccupations db id os)).employments = db.employments := by
  rfl

@[simp] theorem insertOccupations_publications (db : DBState) (id : String) (os : List Occupation) :
    ((insertOccupations db id os)).publications = db.publications := by
  rfl

@[simp] theorem insertOccupations_applyChannels (db : DBState) (id : String) (os : List Occupation) :
    ((insertOccupations db id os)).applyChannels = db.applyChannels := by
  rfl

@[simp] theorem insertOccupations_jobDescriptions (db : DBState) (id : String) (os : List Occupation) :
    ((insertOccupations db id os)).jobDescriptions = db.jobDescriptions := by
  rfl

@[simp] theorem insertOccupations_nextCompanyId (db : DBState) (id : String) (os : List Occupation) :
    ((insertOccupations db id os)).nextCompanyId = db.nextCompanyId := by
  rfl

@[simp] theorem insertOccupations_nextLocationId (db : DBState) (id : String) (os : List Occupation) :
    ((insertOccupations db id os)).nextLocationId = db.nextLocationId := by
  rfl

@[simp] theorem insertDescriptions_jobs :
    ∀ (ds : List JobDescription) (db : DBState) (id : String),
      (insertDescriptions db id ds).jobs = db.jobs := by
  intro ds
  induction ds with
  | nil => intro db id; rfl
  | cons d rest ih =>
    intro db id
    rw [insertDescriptions, ih]
    exact insertDescription_jobs db id d

@[simp] theorem insertDescriptions_companies :
    ∀ (ds : List JobDescription) (db : DBState) (id : String),
      (insertDescriptions db id ds).companies = db.companies := by
  intro ds
  induction ds with
  | nil => intro db id; rfl
  | cons d rest ih =>
    intro db id
    rw [insertDescriptions, ih]
    exact insertDescription_companies db id d

@[simp] theorem insertDescriptions_locations :
    ∀ (ds : List JobDescription) (db : DBState) (id : String),
      (insertDescriptions db id ds).locations = db.locations := by
  intro ds
  induction ds with
  | nil => intro db id; rfl
  | cons d rest ih =>
    intro db id
    rw [insertDescriptions, ih]
    exact insertDescription_locations db id d

@[simp] theorem insertDescriptions_employments :
    ∀ (ds : List JobDescription) (db : DBState) (id : String),
      (insertDescriptions db id ds).employments = db.employments := by
  intro ds
  induction ds with
  | nil => intro db id; rfl
  | cons d rest ih =>
    intro db id
    rw [insertDescriptions, ih]
    exact insertDescription_employments db id d

@[simp] theorem insertDescriptions_publications :
    ∀ (ds : List JobDescription) (db : DBState) (id : String),
      (insertDescriptions db id ds).publications = db.publications := by
  intro ds
  induction ds with
  | nil => intro db id; rfl
  | cons d rest ih =>
    intro db id
    rw [insertDescriptions, ih]
    exact insertDescription_publications db id d

@[simp] theorem insertDescriptions_applyChannels :
    ∀ (ds : List JobDescription) (db : DBState) (id : String),
      (insertDescriptions db id ds).applyChannels = db.applyChannels := by
  intro ds
  induction ds with
  | nil => intro db id; rfl
  | cons d rest ih =>
    intro db id
    rw [insertDescriptions, ih]
    exact insertDescription_applyChannels db id d

@[simp] theorem insertDescriptions_occupations :
    ∀ (ds : List JobDescription) (db : DBState) (id : String),
      (insertDescriptions db id ds).occupations = db.occupations := by
  intro ds
  induction ds with
  | nil => intro db id; rfl
  | cons d rest ih =>
    intro db id
    rw [insertDescriptions, ih]
    exact insertDescription_occupations db id d

@[simp] theorem insertDescriptions_nextCompanyId :
    ∀ (ds : List JobDescription) (db : DBState) (id : String),
      (insertDescriptions db id ds).nextCompanyId = db.nextCompanyId := by
  intro ds
  induction ds with
  | nil => intro db id; rfl
  | cons d rest ih =>
    intro db id
    rw [insertDescriptions, ih]
    exact insertDescription_nextCompanyId db id d

@[simp] theorem insertDescriptions_nextLocationId :
    ∀ (ds : List JobDescription) (db : DBState) (id : String),
      (insertDescriptions db id ds).nextLocationId = db.nextLocationId := by
  intro ds
  induction ds with
  | nil => intro db id; rfl
  | cons d rest ih =>
    intro db id
    rw [insertDescriptions, ih]
    exact insertDescription_nextLocationId db id d

/-! ## Lemmas about the transactional upsert -/

theorem getOrCreateCompanyTx_ok {f : Nat → Bool} {n : Nat} {db : DBState}
    {c : Company} {n' i : Nat} {db' : DBState}
    (h : getOrCreateCompanyTx f n db c = Except.ok (n', i, db')) :
    getOrCreateCompany db c = (i, db') := by
  unfold getOrCreateCompanyTx txStep at h
  unfold getOrCreateCompany
  by_cases h0 : f n
  · simp [h0] at h
  · simp only [h0, if_false, Bool.false_eq_true, reduceIte] at h
    cases hfind : db.companies.find? (fun r => companyRowKey r = companyKey c) with
    | some r =>
      rw [hfind] at h
      simp only [Except.ok.injEq, Prod.mk.injEq] at h
      simp [hfind, h.2.1, h.2.2]
    | none =>
      rw [hfind] at h
      by_cases h1 : f (n + 1)
      · simp [h1] at h
      · simp only [h1, Bool.false_eq_true, reduceIte, Except.ok.injEq,
          Prod.mk.injEq] at h
        obtain ⟨-, hi, hdb⟩ := h
        subst hi
        subst hdb
        rfl

theorem getOrCreateLocationTx_ok {f : Nat → Bool} {n : Nat} {db : DBState}
    {l : Location} {n' i : Nat} {db' : DBState}
    (h : getOrCreateLocationTx f n db l = Except.ok (n', i, db')) :
    getOrCreateLocation db l = (i, db') := by
  unfold getOrCreateLocationTx txStep at h
  unfold getOrCreateLocation
  by_cases h0 : f n
  · simp [h0] at h
  · simp only [h0, if_false, Bool.false_eq_true, reduceIte] at h
    cases hfind : db.locations.find? (fun r => locationRowKey r = locationKey l) with
    | some r =>
      rw [hfind] at h
      simp only [Except.ok.injEq, Prod.mk.injEq] at h
      simp [hfind, h.2.1, h.2.2]
    | none =>
      rw [hfind] at h
      by_cases h1 : f (n + 1)
      · simp [h1] at h
      · simp only [h1, Bool.false_eq_true, reduceIte, Except.ok.injEq,
          Prod.mk.injEq] at h
        obtain ⟨-, hi, hdb⟩ := h
        subst hi
        subst hdb
        rfl

theorem cleanChildrenTx_ok {f : Nat → Bool} {n : Nat} {db : DBState}
    {id : String} {n' : Nat} {db' : DBState}
    (h : cleanChildrenTx f n db id = Except.ok (n', db')) :
    db' = cleanChildren db id := by
  unfold cleanChildrenTx txStep at h
  by_cases h0 : f n
  · simp [h0] at h
  · simp only [h0, Bool.false_eq_true, reduceIte] at h
    by_cases h1 : f (n + 1)
    · simp [h1] at h
    · simp only [h1, Bool.false_eq_true, reduceIte] at h
      by_cases h2 : f (n + 1 + 1)
      · simp [h2] at h
      · simp only [h2, Bool.false_eq_true, reduceIte] at h
        by_cases h3 : f (n + 1 + 1 + 1)
        · simp [h3] at h
        · simp only [h3, Bool.false_eq_true, reduceIte] at h
          by_cases h4 : f (n + 1 + 1 + 1 + 1)
          · simp [h4] at h
          · simp only [h4, Bool.false_eq_true, reduceIte, Except.ok.injEq,
              Prod.mk.injEq] at h
            exact h.2.symm

theorem insertDescriptionsTx_ok {f : Nat → Bool} {id : String} :
    ∀ (ds : List JobDescription) (n : Nat) (db : DBState) (n' : Nat)
      (db' : DBState),
      insertDescriptionsTx f n db id ds = Except.ok (n', db') →
      db' = insertDescriptions db id ds := by
  intro ds
  induction ds with
  | nil =>
    intro n db n' db' h
    unfold insertDescriptionsTx at h
    simp only [Except.ok.injEq, Prod.mk.injEq] at h
    simp [insertDescriptions, h.2]
  | cons d rest ih =>
    intro n db n' db' h
    unfold insertDescriptionsTx txStep at h
    by_cases h0 : f n
    · simp [h0] at h
    · simp only [h0, Bool.false_eq_true, reduceIte] at h
      exact (ih (n + 1) (insertDescription db id d) n' db' h).trans
        (by rw [insertDescriptions])

theorem insertOccupationsTx_ok {f : Nat → Bool} {id : String} :
    ∀ (os : List Occupation) (n : Nat) (db : DBState) (n' : Nat)
      (db' : DBState),
      insertOccupationsTx f n db id os = Except.ok (n', db') →
      db' = insertOccupations db id os := by
  intro os
  induction os with
  | nil =>
    intro n db n' db' h
    unfold insertOccupationsTx at h
    simp only [Except.ok.injEq, Prod.mk.injEq] at h
    simp [insertOccupations, h.2]
  | cons o rest ih =>
    intro n db n' db' h
    unfold insertOccupationsTx txStep at h
    by_cases h0 : f n
    · simp [h0] at h
    · simp only [h0, Bool.false_eq_true, reduceIte] at h
      have := ih (n + 1)
        { db with occupations := db.occupations ++ [⟨id, o⟩] } n' db' h
      rw [this]
      simp [insertOccupations]

theorem upsertJobTx_ok {db : DBState} {job : JobDetail} {f : Nat → Bool}
    {d : DBState} (h : upsertJobTx db job f = Except.ok d) :
    d = upsertJob db job := by
  unfold upsertJobTx at h
  by_cases h0 : f 0
  · simp [txStep, h0] at h
  · rw [show txStep f 0 = Except.ok 1 by simp [txStep, h0]] at h
    simp only at h
    by_cases h1 : f 1
    · simp [txStep, h1] at h
    · rw [show txStep f 1 = Except.ok 2 by simp [txStep, h1]] at h
      simp only at h
      cases hc : getOrCreateCompanyTx f 2 db job.jobContent.company with
      | error e => rw [hc] at h; simp at h
      | ok v =>
        obtain ⟨n3, cid, db1⟩ := v
        rw [hc] at h
        simp only at h
        cases hl : getOrCreateLocationTx f n3 db1 job.jobContent.location with
        | error e => rw [hl] at h; simp at h
        | ok w =>
          obtain ⟨n4, lid, db2⟩ := w
          rw [hl] at h
          simp only at h
          by_cases h4 : f n4
          · simp [txStep, h4] at h
          · rw [show txStep f n4 = Except.ok (n4 + 1) by simp [txStep, h4]] at h
            simp only at h
            cases hcl : cleanChildrenTx f (n4 + 1)
                (upsertParent db2 job cid lid) job.id with
            | error e => rw [hcl] at h; simp at h
            | ok u =>
              obtain ⟨n6, db4⟩ := u
              rw [hcl] at h
              simp only at h
              by_cases h6 : f n6
              · simp [txStep, h6] at h
              · rw [show txStep f n6 = Except.ok (n6 + 1) by
                    simp [txStep, h6]] at h
                simp only at h
                by_cases h7 : f (n6 + 1)
                · simp [txStep, h7] at h
                · rw [show txStep f (n6 + 1) = Except.ok (n6 + 1 + 1) by
                      simp [txStep, h7]] at h
                  simp only at h
                  by_cases h8 : f (n6 + 1 + 1)
                  · simp [txStep, h8] at h
                  · rw [show txStep f (n6 + 1 + 1) =
                        Except.ok (n6 + 1 + 1 + 1) by simp [txStep, h8]] at h
                    simp only at h
                    cases hd : insertDescriptionsTx f (n6 + 1 + 1 + 1)
                        (insertApplyChannel
                          (insertPublication (insertEmployment db4 job) job)
                          job)
                        job.id job.jobContent.jobDescriptions with
                    | error e => rw [hd] at h; simp at h
                    | ok p =>
                      obtain ⟨n10, db8⟩ := p
                      rw [hd] at h
                      simp only at h
                      cases ho : insertOccupationsTx f n10 db8 job.id
                          job.jobContent.occupations with
                      | error e => rw [ho] at h; simp at h
                      | ok q =>
                        obtain ⟨n11, db9⟩ := q
                        rw [ho] at h
                        simp only at h
                        by_cases hb : f n11
                        · simp [txStep, hb] at h
                        · rw [show txStep f n11 = Except.ok (n11 + 1) by
                              simp [txStep, hb]] at h
                          simp only [Except.ok.injEq] at h
                          subst h
                          have e1 := getOrCreateCompanyTx_ok hc
                          have e2 := getOrCreateLocationTx_ok hl
                          have e3 := cleanChildrenTx_ok hcl
                          have e4 := insertDescriptionsTx_ok
                            job.jobContent.jobDescriptions _ _ _ _ hd
                          have e5 := insertOccupationsTx_ok
                            job.jobContent.occupations _ _ _ _ ho
                          rw [e5, e4, e3]
                          simp only [upsertJob, e1, e2]

/-- C2: `Store.UpsertJob` is atomic per record.  For every fault pattern
over the step sequence, either the call succeeds and the visible state is
exactly the one-transaction result `upsertJob db job` (employer/location
get-or-create, parent upsert and delete-then-reinsert of all five child
tables applied together), or it fails and the visible state is exactly the
state before the call — never anything in between.  The boundary is one
record: the argument state of the next call is the per-record result. -/
theorem claim_C2_upsertAtomic (db : DBState) (job : JobDetail)
    (f : Nat → Bool) :
    (applyUpsertJob db job f = db ∨
      applyUpsertJob db job f = upsertJob db job) ∧
    (∀ d, upsertJobTx db job f = Except.ok d → d = upsertJob db job) ∧
    (∀ e, upsertJobTx db job f = Except.error e →
      applyUpsertJob db job f = db) := by
  refine ⟨?_, ?_, ?_⟩
  · unfold applyUpsertJob
    cases hx : upsertJobTx db job f with
    | ok d => exact Or.inr (upsertJobTx_ok hx)
    | error e => exact Or.inl rfl
  · intro d hd
    exact upsertJobTx_ok hd
  · intro e he
    unfold applyUpsertJob
    rw [he]

/-- Witness for C2: a fault injected at step 4 (the location lookup) makes
the call fail and leaves the empty store untouched, and the fault-free call
commits the pure one-transaction result. -/
theorem claim_C2_upsertAtomic_witness :
    applyUpsertJob DBState.empty jobA (fun n => n = 4) = DBState.empty ∧
    (upsertJobTx DBState.empty jobA (fun _ => false)).toOption =
      some (upsertJob DBState.empty jobA) := by
  constructor
  · exact (claim_C2_upsertAtomic DBState.empty jobA (fun n => n = 4)).2.2
      "operation failed" (by rfl)
  · have hstep : upsertJobTx DBState.empty jobA (fun _ => false) =
        Except.ok (upsertJob DBState.empty jobA) := by rfl
    have := (claim_C2_upsertAtomic DBState.empty jobA (fun _ => false)).2.1
      (upsertJob DBState.empty jobA) hstep
    rw [hstep]
    rfl

/-! ## How the child tables mirror the payload -/

theorem descRowsFor_congr {a b : DBState} (id : String)
    (h : a.jobDescriptions = b.jobDescriptions) :
    descRowsFor a id = descRowsFor b id := by
  unfold descRowsFor
  rw [h]

theorem descRowsFor_insertDescription (db : DBState) (id : String)
    (d : JobDescription) :
    descRowsFor (insertDescription db id d) id =
      if (descRowsFor db id).any
          (fun r => r.jobId = id ∧ r.languageIsoCode = d.languageIsoCode) then
        (descRowsFor db id).map (fun r =>
          if r.jobId = id ∧ r.languageIsoCode = d.languageIsoCode then
            { r with title := d.title, description := d.description }
          else r)
      else descRowsFor db id ++ [⟨id, d.languageIsoCode, d.title, d.description⟩] := by
  have hany : (descRowsFor db id).any
      (fun r => r.jobId = id ∧ r.languageIsoCode = d.languageIsoCode) =
      db.jobDescriptions.any
        (fun r => r.jobId = id ∧ r.languageIsoCode = d.languageIsoCode) := by
    unfold descRowsFor
    rw [List.any_filter]
    congr 1
    funext r
    by_cases hr : r.jobId = id ∧ r.languageIsoCode = d.languageIsoCode
    · simp [hr, hr.1]
    · simp only [hr]
      by_cases hj : r.jobId = id <;> simp [hj, hr]
  unfold insertDescription
  by_cases h : db.jobDescriptions.any
      (fun r => r.jobId = id ∧ r.languageIsoCode = d.languageIsoCode) = true
  · rw [if_pos h, hany, if_pos h]
    unfold descRowsFor
    simp only
    rw [List.filter_map]
    congr 1
    apply List.filter_congr
    intro r _
    simp only [Function.comp_apply]
    by_cases hr : r.jobId = id ∧ r.languageIsoCode = d.languageIsoCode
    · simp [hr, hr.1]
    · simp [hr]
  · rw [if_neg h, hany, if_neg h]
    unfold descRowsFor
    simp only
    rw [List.filter_append]
    simp

theorem descRowsFor_insertDescriptions :
    ∀ (ds : List JobDescription) (db : DBState) (id : String),
      descRowsFor (insertDescriptions db id ds) id =
        descFoldRows id (descRowsFor db id) ds := by
  intro ds
  induction ds with
  | nil => intro db id; rfl
  | cons d rest ih =>
    intro db id
    rw [insertDescriptions, ih, descFoldRows, descRowsFor_insertDescription]

theorem descRowsFor_cleanChildren (db : DBState) (id : String) :
    descRowsFor (cleanChildren db id) id = [] := by
  unfold descRowsFor cleanChildren
  simp only
  rw [List.filter_filter]
  apply List.filter_eq_nil_iff.mpr
  intro r _
  by_cases hr : r.jobId = id <;> simp [hr]

theorem descRowsFor_upsertJob (db : DBState) (job : JobDetail) :
    descRowsFor (upsertJob db job) job.id =
      descFoldRows job.id [] job.jobContent.jobDescriptions := by
  unfold upsertJob
  simp only
  rw [descRowsFor_congr job.id (insertOccupations_jobDescriptions _ _ _),
    descRowsFor_insertDescriptions]
  have hbase : descRowsFor
      (insertApplyChannel (insertPublication (insertEmployment
        (cleanChildren (upsertParent
          (getOrCreateLocation (getOrCreateCompany db
            job.jobContent.company).2 job.jobContent.location).2 job
          (getOrCreateCompany db job.jobContent.company).1
          (getOrCreateLocation (getOrCreateCompany db
            job.jobContent.company).2 job.jobContent.location).1) job.id)
        job) job) job) job.id = [] := by
    rw [descRowsFor_congr job.id (by
      rw [insertApplyChannel_jobDescriptions, insertPublication_jobDescriptions,
        insertEmployment_jobDescriptions])]
    exact descRowsFor_cleanChildren _ job.id
  rw [hbase]

theorem employmentRowsFor_upsertJob (db : DBState) (job : JobDetail) :
    employmentRowsFor (upsertJob db job) job.id =
      [⟨job.id, job.jobContent.employment⟩] := by
  unfold employmentRowsFor upsertJob
  simp only [insertOccupations_employments, insertDescriptions_employments,
    insertApplyChannel_employments, insertPublication_employments]
  unfold insertEmployment cleanChildren
  simp only
  rw [List.filter_append, List.filter_filter]
  have h1 : ∀ (l : List EmploymentRow), List.filter
      (fun a => decide (a.jobId = job.id) && decide ¬ a.jobId = job.id) l = [] := by
    intro l
    apply List.filter_eq_nil_iff.mpr
    intro r _
    by_cases hr : r.jobId = job.id <;> simp [hr]
  rw [h1]
  simp

theorem publicationRowsFor_upsertJob (db : DBState) (job : JobDetail) :
    publicationRowsFor (upsertJob db job) job.id =
      [⟨job.id, job.publication⟩] := by
  unfold publicationRowsFor upsertJob
  simp only [insertOccupations_publications, insertDescriptions_publications,
    insertApplyChannel_publications]
  unfold insertPublication insertEmployment cleanChildren
  simp only
  rw [List.filter_append, List.filter_filter]
  have h1 : ∀ (l : List PublicationRow), List.filter
      (fun a => decide (a.jobId = job.id) && decide ¬ a.jobId = job.id) l = [] := by
    intro l
    apply List.filter_eq_nil_iff.mpr
    intro r _
    by_cases hr : r.jobId = job.id <;> simp [hr]
  rw [h1]
  simp

theorem applyRowsFor_upsertJob (db : DBState) (job : JobDetail) :
    applyRowsFor (upsertJob db job) job.id =
      [⟨job.id, job.jobContent.applyChannel⟩] := by
  unfold applyRowsFor upsertJob
  simp only [insertOccupations_applyChannels, insertDescriptions_applyChannels]
  unfold insertApplyChannel insertPublication insertEmployment cleanChildren
  simp only
  rw [List.filter_append, List.filter_filter]
  have h1 : ∀ (l : List ApplyChannelRow), List.filter
      (fun a => decide (a.jobId = job.id) && decide ¬ a.jobId = job.id) l = [] := by
    intro l
    apply List.filter_eq_nil_iff.mpr
    intro r _
    by_cases hr : r.jobId = job.id <;> simp [hr]
  rw [h1]
  simp

theorem occRowsFor_upsertJob (db : DBState) (job : JobDetail) :
    occRowsFor (upsertJob db job) job.id =
      job.jobContent.occupations.map (fun o => (⟨job.id, o⟩ : OccupationRow)) := by
  unfold occRowsFor upsertJob
  simp only
  unfold insertOccupations
  simp only [insertDescriptions_occupations, insertApplyChannel_occupations,
    insertPublication_occupations, insertEmployment_occupations]
  unfold cleanChildren
  simp only
  rw [List.filter_append, List.filter_filter]
  have h1 : ∀ (l : List OccupationRow), List.filter
      (fun a => decide (a.jobId = job.id) && decide ¬ a.jobId = job.id) l = [] := by
    intro l
    apply List.filter_eq_nil_iff.mpr
    intro r _
    by_cases hr : r.jobId = job.id <;> simp [hr]
  rw [h1]
  rw [List.filter_map]
  simp only [List.nil_append]
  congr 1
  apply List.filter_eq_self.mpr
  intro a _
  simp

/-! ## The parent row and the dedup keys -/

theorem jobRowsFor_upsertJob_length (db : DBState) (job : JobDetail)
    (h : (jobRowsFor db job.id).length ≤ 1) :
    (jobRowsFor (upsertJob db job) job.id).length = 1 := by
  have hjobs : (upsertJob db job).jobs =
      (upsertParent ((getOrCreateLocation ((getOrCreateCompany db
        job.jobContent.company).2) job.jobContent.location).2) job
        (getOrCreateCompany db job.jobContent.company).1
        (getOrCreateLocation ((getOrCreateCompany db
          job.jobContent.company).2) job.jobContent.location).1).jobs := by
    simp [upsertJob]
  unfold jobRowsFor at h ⊢
  rw [hjobs]
  unfold upsertParent
  have hbase : ((getOrCreateLocation ((getOrCreateCompany db
      job.jobContent.company).2) job.jobContent.location).2).jobs = db.jobs := by
    simp
  split
  · next hany =>
    rw [hbase] at hany
    simp only [hbase]
    rw [List.filter_map]
    have hfix : db.jobs.filter ((fun r => decide (r.id = job.id)) ∘ fun r =>
        if r.id = job.id then
          { jobRowOf job (getOrCreateCompany db job.jobContent.company).1
              (getOrCreateLocation ((getOrCreateCompany db
                job.jobContent.company).2) job.jobContent.location).1 with
            createdTime := r.createdTime }
        else r) = db.jobs.filter (fun r => r.id = job.id) := by
      apply List.filter_congr
      intro r _
      by_cases hr : r.id = job.id <;> simp [hr, jobRowOf]
    rw [hfix]
    rw [List.length_map]
    have hpos : 0 < (db.jobs.filter (fun r => r.id = job.id)).length := by
      rw [List.any_eq_true] at hany
      obtain ⟨r, hr, hp⟩ := hany
      have : r ∈ db.jobs.filter (fun r => r.id = job.id) :=
        List.mem_filter.mpr ⟨hr, hp⟩
      exact List.length_pos.mpr (fun hnil => by simp [hnil] at this)
    omega
  · next hany =>
    rw [hbase] at hany
    simp only [hbase]
    rw [List.filter_append]
    have hnil : db.jobs.filter (fun r => r.id = job.id) = [] := by
      apply List.filter_eq_nil_iff.mpr
      intro r hr
      rw [List.any_eq_true] at hany
      push_neg at hany
      simpa using hany r hr
    rw [hnil]
    simp [jobRowOf]

theorem descFoldRows_length_nodup (id : String) :
    ∀ (ds : List JobDescription) (rows : List JobDescriptionRow),
      (∀ r ∈ rows, r.jobId = id) →
      ((rows.map (fun r => r.languageIsoCode)) ++
        ds.map (fun d => d.languageIsoCode)).Nodup →
      (descFoldRows id rows ds).length = rows.length + ds.length := by
  intro ds
  induction ds with
  | nil => intro rows _ _; simp [descFoldRows]
  | cons d rest ih =>
    intro rows hjob hnodup
    rw [descFoldRows]
    have hnd := List.nodup_append.mp (by simpa using hnodup)
    have hnotmem : d.languageIsoCode ∉ rows.map (fun r => r.languageIsoCode) :=
      fun hmem => hnd.2.2 hmem (by simp)
    have hany : rows.any
        (fun r => r.jobId = id ∧ r.languageIsoCode = d.languageIsoCode) = false := by
      simp only [List.any_eq_false, decide_eq_true_eq, not_and]
      intro r hr _ hlang
      exact hnotmem (by
        rw [← hlang]
        exact List.mem_map_of_mem _ hr)
    rw [if_neg (by rw [hany]; exact Bool.false_ne_true)]
    have hres := ih (rows ++
        [(⟨id, d.languageIsoCode, d.title, d.description⟩ : JobDescriptionRow)])
      (by
        intro r hr
        rcases List.mem_append.mp hr with h1 | h1
        · exact hjob r h1
        · simp only [List.mem_singleton] at h1
          simp [h1])
      (by
        have hperm : rows.map (fun r => r.languageIsoCode) ++
            (d :: rest).map (fun d => d.languageIsoCode) =
            ((rows ++
              [(⟨id, d.languageIsoCode, d.title, d.description⟩ :
                JobDescriptionRow)]).map
              (fun r => r.languageIsoCode)) ++
              rest.map (fun d => d.languageIsoCode) := by
          simp
        rw [← hperm]
        exact hnodup)
    rw [hres]
    simp
    omega

theorem newCompanyRow_key (db : DBState) (c : Company) :
    companyRowKey (newCompanyRow db c) = companyKey c := rfl

theorem newLocationRow_key (db : DBState) (l : Location) :
    locationRowKey (newLocationRow db l) = locationKey l := rfl

theorem usedCompanyId_congr {a b : DBState} (c : Company)
    (hc : a.companies = b.companies) (hn : a.nextCompanyId = b.nextCompanyId) :
    usedCompanyId a c = usedCompanyId b c := by
  unfold usedCompanyId getOrCreateCompany
  rw [hc, hn]
  cases b.companies.find? (fun r => companyRowKey r = companyKey c) <;> rfl

theorem usedLocationId_congr {a b : DBState} (l : Location)
    (hc : a.locations = b.locations) (hn : a.nextLocationId = b.nextLocationId) :
    usedLocationId a l = usedLocationId b l := by
  unfold usedLocationId getOrCreateLocation
  rw [hc, hn]
  cases b.locations.find? (fun r => locationRowKey r = locationKey l) <;> rfl

theorem upsertJob_companies (db : DBState) (job : JobDetail) :
    (upsertJob db job).companies =
      ((getOrCreateCompany db job.jobContent.company).2).companies := by
  simp [upsertJob]

theorem upsertJob_nextCompanyId (db : DBState) (job : JobDetail) :
    (upsertJob db job).nextCompanyId =
      ((getOrCreateCompany db job.jobContent.company).2).nextCompanyId := by
  simp [upsertJob]

theorem upsertJob_locations (db : DBState) (job : JobDetail) :
    (upsertJob db job).locations =
      ((getOrCreateLocation ((getOrCreateCompany db
        job.jobContent.company).2) job.jobContent.location).2).locations := by
  simp [upsertJob]

theorem upsertJob_nextLocationId (db : DBState) (job : JobDetail) :
    (upsertJob db job).nextLocationId =
      ((getOrCreateLocation ((getOrCreateCompany db
        job.jobContent.company).2) job.jobContent.location).2).nextLocationId := by
  simp [upsertJob]

theorem usedCompanyId_getOrCreate {db : DBState} {c1 c2 : Company}
    (hkey : companyKey c2 = companyKey c1) :
    usedCompanyId (getOrCreateCompany db c1).2 c2 =
      (getOrCreateCompany db c1).1 := by
  unfold usedCompanyId getOrCreateCompany
  have hpred : (fun r => decide (companyRowKey r = companyKey c2)) =
      (fun r => decide (companyRowKey r = companyKey c1)) := by
    funext r; rw [hkey]
  cases hf : db.companies.find? (fun r => companyRowKey r = companyKey c1) with
  | some r =>
    simp only [hf]
    rw [hpred, hf]
  | none =>
    simp only [hf]
    rw [hpred, List.find?_append, hf]
    simp [List.find?, newCompanyRow_key]
    rfl

theorem usedLocationId_getOrCreate {db : DBState} {l1 l2 : Location}
    (hkey : locationKey l2 = locationKey l1) :
    usedLocationId (getOrCreateLocation db l1).2 l2 =
      (getOrCreateLocation db l1).1 := by
  unfold usedLocationId getOrCreateLocation
  have hpred : (fun r => decide (locationRowKey r = locationKey l2)) =
      (fun r => decide (locationRowKey r = locationKey l1)) := by
    funext r; rw [hkey]
  cases hf : db.locations.find? (fun r => locationRowKey r = locationKey l1) with
  | some r =>
    simp only [hf]
    rw [hpred, hf]
  | none =>
    simp only [hf]
    rw [hpred, List.find?_append, hf]
    simp [List.find?, newLocationRow_key]
    rfl

theorem usedLocationId_getOrCreate_ne {db : DBState} {l1 l2 : Location}
    (hwf : locationIdsOK db) (hkey : locationKey l2 ≠ locationKey l1) :
    usedLocationId (getOrCreateLocation db l1).2 l2 ≠
      (getOrCreateLocation db l1).1 := by
  obtain ⟨hnodup, hbound⟩ := hwf
  unfold usedLocationId getOrCreateLocation
  cases hf1 : db.locations.find? (fun r => locationRowKey r = locationKey l1) with
  | some r1 =>
    simp only [hf1]
    have hr1mem := List.mem_of_find?_eq_some hf1
    have hr1key : locationRowKey r1 = locationKey l1 := by
      simpa using List.find?_some hf1
    cases hf2 : db.locations.find? (fun r => locationRowKey r = locationKey l2) with
    | some r2 =>
      simp only [hf2]
      have hr2mem := List.mem_of_find?_eq_some hf2
      have hr2key : locationRowKey r2 = locationKey l2 := by
        simpa using List.find?_some hf2
      intro heq
      have : r2 = r1 := List.inj_on_of_nodup_map hnodup hr2mem hr1mem heq
      exact hkey (by rw [← hr2key, this, hr1key])
    | none =>
      simp only [hf2]
      intro heq
      exact (Nat.ne_of_lt (hbound r1 hr1mem)) heq.symm
  | none =>
    simp only [hf1]
    rw [List.find?_append]
    cases hf2 : db.locations.find? (fun r => locationRowKey r = locationKey l2) with
    | some r2 =>
      simp only [hf2, Option.or]
      have hr2mem := List.mem_of_find?_eq_some hf2
      intro heq
      exact (Nat.ne_of_lt (hbound r2 hr2mem)) heq
    | none =>
      have hnew : (List.find?
          (fun r => decide (locationRowKey r = locationKey l2))
          [newLocationRow db l1]) = none := by
        have hne : ¬ locationRowKey (newLocationRow db l1) = locationKey l2 := by
          rw [newLocationRow_key]
          intro hcontra
          exact hkey hcontra.symm
        simp [List.find?, hne]
      simp only [Option.or, hnew]
      exact Nat.succ_ne_self db.nextLocationId

theorem companyKeysNodup_upsertJob (db : DBState) (job : JobDetail)
    (h : companyKeysNodup db) : companyKeysNodup (upsertJob db job) := by
  unfold companyKeysNodup at h ⊢
  rw [upsertJob_companies]
  unfold getOrCreateCompany
  cases hf : db.companies.find?
      (fun r => companyRowKey r = companyKey job.jobContent.company) with
  | some r => simpa using h
  | none =>
    simp only
    rw [List.map_append, List.nodup_append]
    refine ⟨h, by simp, ?_⟩
    intro x hx hx2
    simp only [List.map_cons, List.map_nil, List.mem_singleton,
      newCompanyRow_key] at hx2
    subst hx2
    rw [List.find?_eq_none] at hf
    obtain ⟨r, hr, hkey⟩ := List.mem_map.mp hx
    exact hf r hr (by simp [hkey])

theorem locationIdsOK_congr {a b : DBState}
    (hl : a.locations = b.locations) (hn : a.nextLocationId = b.nextLocationId) :
    locationIdsOK a ↔ locationIdsOK b := by
  unfold locationIdsOK
  rw [hl, hn]

theorem locationIdsOK_getOrCreate (db : DBState) (l : Location)
    (h : locationIdsOK db) : locationIdsOK (getOrCreateLocation db l).2 := by
  obtain ⟨hnodup, hbound⟩ := h
  unfold locationIdsOK getOrCreateLocation
  cases hf : db.locations.find? (fun r => locationRowKey r = locationKey l) with
  | some r =>
    exact ⟨hnodup, hbound⟩
  | none =>
    simp only
    have hnewid : (newLocationRow db l).id = db.nextLocationId := rfl
    constructor
    · rw [List.map_append, List.nodup_append]
      refine ⟨hnodup, by simp, ?_⟩
      intro x hx hx2
      simp only [List.map_cons, List.map_nil, List.mem_singleton] at hx2
      subst hx2
      obtain ⟨r, hr, hid⟩ := List.mem_map.mp hx
      rw [hnewid] at hid
      exact (Nat.ne_of_lt (hbound r hr)) hid
    · intro r hr
      rcases List.mem_append.mp hr with h1 | h1
      · exact Nat.lt_trans (hbound r h1) (Nat.lt_succ_self _)
      · simp only [List.mem_singleton] at h1
        subst h1
        rw [hnewid]
        exact Nat.lt_succ_self _

theorem locationIdsOK_upsertJob (db : DBState) (job : JobDetail)
    (h : locationIdsOK db) : locationIdsOK (upsertJob db job) := by
  rw [locationIdsOK_congr (upsertJob_locations db job)
    (upsertJob_nextLocationId db job)]
  apply locationIdsOK_getOrCreate
  exact (locationIdsOK_congr (by simp) (by simp)).mpr h

theorem usedCompanyId_upsertJob (db : DBState) (j1 : JobDetail) (c : Company)
    (hkey : companyKey c = companyKey j1.jobContent.company) :
    usedCompanyId (upsertJob db j1) c =
      usedCompanyId db j1.jobContent.company := by
  rw [usedCompanyId_congr c (upsertJob_companies db j1)
    (upsertJob_nextCompanyId db j1)]
  exact usedCompanyId_getOrCreate hkey

theorem usedLocationId_upsertJob (db : DBState) (j1 : JobDetail) (l : Location)
    (hkey : locationKey l = locationKey j1.jobContent.location) :
    usedLocationId (upsertJob db j1) l =
      usedLocationId db j1.jobContent.location := by
  rw [usedLocationId_congr l (upsertJob_locations db j1)
    (upsertJob_nextLocationId db j1)]
  rw [usedLocationId_getOrCreate hkey]
  exact (usedLocationId_congr j1.jobContent.location (by simp) (by simp)).symm

theorem usedLocationId_upsertJob_ne (db : DBState) (j1 : JobDetail)
    (l : Location) (hwf : locationIdsOK db)
    (hkey : locationKey l ≠ locationKey j1.jobContent.location) :
    usedLocationId (upsertJob db j1) l ≠
      usedLocationId db j1.jobContent.location := by
  rw [usedLocationId_congr l (upsertJob_locations db j1)
    (upsertJob_nextLocationId db j1)]
  have hbase : usedLocationId db j1.jobContent.location =
      (getOrCreateLocation ((getOrCreateCompany db
        j1.jobContent.company).2) j1.jobContent.location).1 := by
    rw [usedLocationId_congr j1.jobContent.location
      (a := db)
      (b := (getOrCreateCompany db j1.jobContent.company).2)
      (by simp) (by simp)]
    rfl
  rw [hbase]
  exact usedLocationId_getOrCreate_ne
    ((locationIdsOK_congr (by simp) (by simp)).mpr hwf) hkey

/-! ## The claims about the normalization store -/

/-- C3 counterexample: a payload carrying two descriptions with the same
language code.  Upserting it twice leaves one description row, not as many
rows as the payload contains. -/
theorem claim_C3_idempotence_cex :
    jobDup.jobContent.jobDescriptions.length = 2 ∧
    (descRowsFor (upsertJob (upsertJob DBState.empty jobDup) jobDup)
      jobDup.id).length = 1 := by decide

/-- C3 (amended): upserting the same payload twice yields exactly one record
row for its natural id, resolves identical employer and location surrogate
keys in both calls, and — provided the payload's description language codes
are pairwise distinct — leaves exactly as many description rows as the
payload contains. -/
theorem claim_C3_idempotence (db : DBState) (job : JobDetail)
    (hjob : (jobRowsFor db job.id).length ≤ 1)
    (hnodup : (job.jobContent.jobDescriptions.map
      (fun d => d.languageIsoCode)).Nodup) :
    (jobRowsFor (upsertJob (upsertJob db job) job) job.id).length = 1 ∧
    usedCompanyId (upsertJob db job) job.jobContent.company =
      usedCompanyId db job.jobContent.company ∧
    usedLocationId (upsertJob db job) job.jobContent.location =
      usedLocationId db job.jobContent.location ∧
    (descRowsFor (upsertJob (upsertJob db job) job) job.id).length =
      job.jobContent.jobDescriptions.length := by
  refine ⟨?_, ?_, ?_, ?_⟩
  · exact jobRowsFor_upsertJob_length _ job
      (Nat.le_of_eq (jobRowsFor_upsertJob_length db job hjob))
  · exact usedCompanyId_upsertJob db job job.jobContent.company rfl
  · exact usedLocationId_upsertJob db job job.jobContent.location rfl
  · rw [descRowsFor_upsertJob]
    have := descFoldRows_length_nodup job.id job.jobContent.jobDescriptions []
      (by intro r hr; cases hr) (by simpa using hnodup)
    simpa using this

/-- Witness for C3 (amended) at a concrete record over the empty store. -/
theorem claim_C3_idempotence_witness :
    (jobRowsFor (upsertJob (upsertJob DBState.empty jobA) jobA)
      jobA.id).length = 1 ∧
    usedCompanyId (upsertJob DBState.empty jobA) jobA.jobContent.company =
      usedCompanyId DBState.empty jobA.jobContent.company ∧
    usedLocationId (upsertJob DBState.empty jobA) jobA.jobContent.location =
      usedLocationId DBState.empty jobA.jobContent.location ∧
    (descRowsFor (upsertJob (upsertJob DBState.empty jobA) jobA)
      jobA.id).length = jobA.jobContent.jobDescriptions.length :=
  claim_C3_idempotence DBState.empty jobA (by decide) (by decide)

/-- C4: after a successful upsert the record's child collections are exactly
the rows generated from the fresh payload — independent of any earlier state
of the record, so no stale child row survives; in particular a description
set that shrank to one language leaves exactly one description row. -/
theorem claim_C4_childMirror (db : DBState) (job : JobDetail) :
    employmentRowsFor (upsertJob db job) job.id =
      [⟨job.id, job.jobContent.employment⟩] ∧
    publicationRowsFor (upsertJob db job) job.id =
      [⟨job.id, job.publication⟩] ∧
    applyRowsFor (upsertJob db job) job.id =
      [⟨job.id, job.jobContent.applyChannel⟩] ∧
    descRowsFor (upsertJob db job) job.id =
      descFoldRows job.id [] job.jobContent.jobDescriptions ∧
    occRowsFor (upsertJob db job) job.id =
      job.jobContent.occupations.map (fun o => (⟨job.id, o⟩ : OccupationRow)) ∧
    (∀ (jPrev : JobDetail) (d : JobDescription),
      jPrev.id = job.id → jPrev.jobContent.jobDescriptions.length = 3 →
      job.jobContent.jobDescriptions = [d] →
      (descRowsFor (upsertJob (upsertJob db jPrev) job) job.id).length = 1) := by
  refine ⟨employmentRowsFor_upsertJob db job, publicationRowsFor_upsertJob db job,
    applyRowsFor_upsertJob db job, descRowsFor_upsertJob db job,
    occRowsFor_upsertJob db job, ?_⟩
  intro jPrev d _ _ hone
  rw [descRowsFor_upsertJob, hone]
  rfl

/-- Witness for C4: a record whose description set shrank from three
languages to one between two ingestions. -/
theorem claim_C4_childMirror_witness :
    descRowsFor (upsertJob DBState.empty job1L) job1L.id =
      descFoldRows job1L.id [] job1L.jobContent.jobDescriptions ∧
    (descRowsFor (upsertJob (upsertJob DBState.empty job3L) job1L)
      job1L.id).length = 1 :=
  ⟨(claim_C4_childMirror DBState.empty job1L).2.2.2.1,
    (claim_C4_childMirror DBState.empty job1L).2.2.2.2.2 job3L
      ⟨"de", "T", "D"⟩ (by decide) (by decide) (by decide)⟩

/-- C5: the employer natural key is name + postal code + city: the store
never holds two employer rows with the same key (preserved by every upsert
and every run of upserts), and a second record with the same key resolves
exactly the surrogate key the first record resolved. -/
theorem claim_C5_employerDedup :
    (∀ (db : DBState) (job : JobDetail), companyKeysNodup db →
      companyKeysNodup (upsertJob db job)) ∧
    (∀ (db : DBState) (jobs : List JobDetail), companyKeysNodup db →
      companyKeysNodup (List.foldl upsertJob db jobs)) ∧
    (∀ (db : DBState) (j1 j2 : JobDetail),
      companyKey j2.jobContent.company = companyKey j1.jobContent.company →
      usedCompanyId (upsertJob db j1) j2.jobContent.company =
        usedCompanyId db j1.jobContent.company) := by
  refine ⟨companyKeysNodup_upsertJob, ?_, ?_⟩
  · intro db jobs
    induction jobs generalizing db with
    | nil => intro h; exact h
    | cons j rest ih =>
      intro h
      exact ih (upsertJob db j) (companyKeysNodup_upsertJob db j h)
  · intro db j1 j2 hkey
    exact usedCompanyId_upsertJob db j1 j2.jobContent.company hkey

/-- Witness for C5: two records sharing one employer over the empty store. -/
theorem claim_C5_employerDedup_witness :
    companyKeysNodup (List.foldl upsertJob DBState.empty [jobA, jobB]) ∧
    usedCompanyId (upsertJob DBState.empty jobA) jobB.jobContent.company =
      usedCompanyId DBState.empty jobA.jobContent.company :=
  ⟨claim_C5_employerDedup.2.1 DBState.empty [jobA, jobB]
      (by unfold companyKeysNodup; decide),
    claim_C5_employerDedup.2.2 DBState.empty jobA jobB (by decide)⟩

/-- C6 counterexample: two location payloads with the same postal code, city
and region code but different canton codes resolve different surrogate keys —
the code's dedup key uses the canton code, not the region code the claim
names. -/
theorem claim_C6_locationKey_cex :
    locationSpecKey jobB.jobContent.location =
      locationSpecKey jobA.jobContent.location ∧
    usedLocationId (upsertJob DBState.empty jobA) jobB.jobContent.location ≠
      usedLocationId DBState.empty jobA.jobContent.location := by decide

/-- C6 (amended): location deduplication uses the natural key postal code +
city + canton code: payloads agreeing on those three fields resolve the same
surrogate key, payloads differing on the key resolve distinct surrogate keys
(given well-formed surrogate keys, which every upsert preserves). -/
theorem claim_C6_locationDedup :
    (∀ (db : DBState) (j1 j2 : JobDetail),
      locationKey j2.jobContent.location = locationKey j1.jobContent.location →
      usedLocationId (upsertJob db j1) j2.jobContent.location =
        usedLocationId db j1.jobContent.location) ∧
    (∀ (db : DBState) (j1 j2 : JobDetail), locationIdsOK db →
      locationKey j2.jobContent.location ≠ locationKey j1.jobContent.location →
      usedLocationId (upsertJob db j1) j2.jobContent.location ≠
        usedLocationId db j1.jobContent.location) ∧
    (∀ (db : DBState) (job : JobDetail), locationIdsOK db →
      locationIdsOK (upsertJob db job)) := by
  refine ⟨?_, ?_, locationIdsOK_upsertJob⟩
  · intro db j1 j2 hkey
    exact usedLocationId_upsertJob db j1 j2.jobContent.location hkey
  · intro db j1 j2 hwf hkey
    exact usedLocationId_upsertJob_ne db j1 j2.jobContent.location hwf hkey

/-- Witness for C6 (amended): same canton key resolves the same surrogate,
a different canton key resolves a different one. -/
theorem claim_C6_locationDedup_witness :
    usedLocationId (upsertJob DBState.empty jobA) jobA.jobContent.location =
      usedLocationId DBState.empty jobA.jobContent.location ∧
    usedLocationId (upsertJob DBState.empty jobA) jobB.jobContent.location ≠
      usedLocationId DBState.empty jobA.jobContent.location :=
  ⟨claim_C6_locationDedup.1 DBState.empty jobA jobA rfl,
    claim_C6_locationDedup.2.1 DBState.empty jobA jobB
      (by unfold locationIdsOK; decide) (by decide)⟩

/-! ## Lemmas about the record loop and the page loop -/

theorem aiStep_counters (env : Env) (idx : Nat) (res : RunResult) :
    (aiStep env idx res).status = res.status ∧
    (aiStep env idx res).jobsProcessed = res.jobsProcessed ∧
    (aiStep env idx res).jobsInserted = res.jobsInserted ∧
    (aiStep env idx res).jobsUpdated = res.jobsUpdated ∧
    (aiStep env idx res).jobsSkipped = res.jobsSkipped ∧
    (aiStep env idx res).errors = res.errors ∧
    (aiStep env idx res).stopReason = res.stopReason ∧
    (aiStep env idx res).recordErrors = res.recordErrors := by
  unfold aiStep
  by_cases h : env.aiEnabled = true
  · rw [if_pos h]
    cases env.aiOutcome idx <;> exact ⟨rfl, rfl, rfl, rfl, rfl, rfl, rfl, rfl⟩
  · rw [if_neg h]
    exact ⟨rfl, rfl, rfl, rfl, rfl, rfl, rfl, rfl⟩

theorem processJobs_append (env : Env) (s : String) :
    ∀ (xs ys : List JobDetail) (db : DBState) (res : RunResult),
      processJobs env s (xs ++ ys) db res =
        (match processJobs env s xs db res with
          | (db1, res1, true) => (db1, res1, true)
          | (db1, res1, false) => processJobs env s ys db1 res1) := by
  intro xs
  induction xs with
  | nil => intro ys db res; rfl
  | cons j rest ih =>
    intro ys db res
    simp only [List.cons_append, processJobs]
    by_cases h1 : env.checkFault res.jobsProcessed = true
    · rw [if_pos h1, if_pos h1]
      exact ih ys _ _
    · rw [if_neg h1, if_neg h1]
      by_cases h2 : s = "incremental" ∧
          getJobLastUpdated db j.id = some j.updatedTime
      · rw [if_pos h2, if_pos h2]
      · rw [if_neg h2, if_neg h2]
        cases env.fetchDetail res.jobsProcessed j.id with
        | error e => dsimp only; exact ih ys _ _
        | ok detail =>
          dsimp only
          by_cases h3 : env.storeFault res.jobsProcessed = true
          · rw [if_pos h3, if_pos h3]
            exact ih ys _ _
          · rw [if_neg h3, if_neg h3]
            exact ih ys _ _

theorem processJobs_noBreak (env : Env) (s : String) :
    ∀ (xs : List JobDetail) (db : DBState) (res : RunResult)
      (db' : DBState) (res' : RunResult),
      processJobs env s xs db res = (db', res', false) →
      res'.jobsSkipped = res.jobsSkipped ∧ res'.status = res.status ∧
        res'.stopReason = res.stopReason := by
  intro xs
  induction xs with
  | nil =>
    intro db res db' res' h
    simp only [processJobs, Prod.mk.injEq] at h
    rw [← h.2.1]
    exact ⟨rfl, rfl, rfl⟩
  | cons j rest ih =>
    intro db res db' res' h
    simp only [processJobs] at h
    by_cases h1 : env.checkFault res.jobsProcessed = true
    · rw [if_pos h1] at h
      have hrec := ih _ _ _ _ h
      exact ⟨hrec.1, hrec.2.1, hrec.2.2⟩
    · rw [if_neg h1] at h
      by_cases h2 : s = "incremental" ∧
          getJobLastUpdated db j.id = some j.updatedTime
      · rw [if_pos h2] at h
        simp at h
      · rw [if_neg h2] at h
        cases hfd : env.fetchDetail res.jobsProcessed j.id with
        | error e =>
          rw [hfd] at h
          dsimp only at h
          have hrec := ih _ _ _ _ h
          exact ⟨hrec.1, hrec.2.1, hrec.2.2⟩
        | ok detail =>
          rw [hfd] at h
          dsimp only at h
          by_cases h3 : env.storeFault res.jobsProcessed = true
          · rw [if_pos h3] at h
            have hrec := ih _ _ _ _ h
            exact ⟨hrec.1, hrec.2.1, hrec.2.2⟩
          · rw [if_neg h3] at h
            have hrec := ih _ _ _ _ h
            have hai := aiStep_counters env res.jobsProcessed
              (if (getJobLastUpdated db j.id).isSome then
                { res with jobsProcessed := res.jobsProcessed + 1,
                           jobsUpdated := res.jobsUpdated + 1 }
              else
                { res with jobsProcessed := res.jobsProcessed + 1,
                           jobsInserted := res.jobsInserted + 1 })
            by_cases h4 : (getJobLastUpdated db j.id).isSome = true
            · rw [if_pos h4] at hrec hai
              rw [hrec.1, hrec.2.1, hrec.2.2, hai.1, hai.2.2.2.2.1,
                hai.2.2.2.2.2.2.1]
              exact ⟨rfl, rfl, rfl⟩
            · rw [if_neg h4] at hrec hai
              rw [hrec.1, hrec.2.1, hrec.2.2, hai.1, hai.2.2.2.2.1,
                hai.2.2.2.2.2.2.1]
              exact ⟨rfl, rfl, rfl⟩

theorem processJobs_status (env : Env) (s : String) :
    ∀ (xs : List JobDetail) (db : DBState) (res : RunResult),
      (processJobs env s xs db res).2.1.status = res.status := by
  intro xs
  induction xs with
  | nil => intro db res; rfl
  | cons j rest ih =>
    intro db res
    simp only [processJobs]
    by_cases h1 : env.checkFault res.jobsProcessed = true
    · rw [if_pos h1]; exact ih _ _
    · rw [if_neg h1]
      by_cases h2 : s = "incremental" ∧
          getJobLastUpdated db j.id = some j.updatedTime
      · rw [if_pos h2]
      · rw [if_neg h2]
        cases env.fetchDetail res.jobsProcessed j.id with
        | error e => dsimp only; exact ih _ _
        | ok detail =>
          dsimp only
          by_cases h3 : env.storeFault res.jobsProcessed = true
          · rw [if_pos h3]; exact ih _ _
          · rw [if_neg h3]
            rw [ih _ _]
            by_cases h4 : (getJobLastUpdated db j.id).isSome = true
            · rw [if_pos h4]
              exact (aiStep_counters env res.jobsProcessed _).1
            · rw [if_neg h4]
              exact (aiStep_counters env res.jobsProcessed _).1

theorem processJobs_inv (env : Env) (s : String) :
    ∀ (xs : List JobDetail) (db : DBState) (res : RunResult),
      res.jobsProcessed = res.jobsInserted + res.jobsUpdated +
        res.jobsSkipped + res.recordErrors →
      (processJobs env s xs db res).2.1.jobsProcessed =
        (processJobs env s xs db res).2.1.jobsInserted +
        (processJobs env s xs db res).2.1.jobsUpdated +
        (processJobs env s xs db res).2.1.jobsSkipped +
        (processJobs env s xs db res).2.1.recordErrors := by
  intro xs
  induction xs with
  | nil => intro db res h; exact h
  | cons j rest ih =>
    intro db res h
    simp only [processJobs]
    by_cases h1 : env.checkFault res.jobsProcessed = true
    · rw [if_pos h1]
      exact ih _ _ (by dsimp only; omega)
    · rw [if_neg h1]
      by_cases h2 : s = "incremental" ∧
          getJobLastUpdated db j.id = some j.updatedTime
      · rw [if_pos h2]
        dsimp only
        omega
      · rw [if_neg h2]
        cases env.fetchDetail res.jobsProcessed j.id with
        | error e =>
          dsimp only
          exact ih _ _ (by dsimp only; omega)
        | ok detail =>
          dsimp only
          by_cases h3 : env.storeFault res.jobsProcessed = true
          · rw [if_pos h3]
            exact ih _ _ (by dsimp only; omega)
          · rw [if_neg h3]
            apply ih
            by_cases h4 : (getJobLastUpdated db j.id).isSome = true
            · rw [if_pos h4]
              have hai := aiStep_counters env res.jobsProcessed
                { res with jobsProcessed := res.jobsProcessed + 1,
                           jobsUpdated := res.jobsUpdated + 1 }
              rw [hai.2.1, hai.2.2.1, hai.2.2.2.1, hai.2.2.2.2.1,
                hai.2.2.2.2.2.2.2]
              dsimp only
              omega
            · rw [if_neg h4]
              have hai := aiStep_counters env res.jobsProcessed
                { res with jobsProcessed := res.jobsProcessed + 1,
                           jobsInserted := res.jobsInserted + 1 }
              rw [hai.2.1, hai.2.2.1, hai.2.2.2.1, hai.2.2.2.2.1,
                hai.2.2.2.2.2.2.2]
              dsimp only
              omega

theorem runLoop_inv (env : Env) (req : ScrapeRequest) :
    ∀ (fuel page cerr : Nat) (db : DBState) (res : RunResult),
      res.jobsProcessed = res.jobsInserted + res.jobsUpdated +
        res.jobsSkipped + res.recordErrors →
      (runLoop env req fuel page cerr db res).2.jobsProcessed =
        (runLoop env req fuel page cerr db res).2.jobsInserted +
        (runLoop env req fuel page cerr db res).2.jobsUpdated +
        (runLoop env req fuel page cerr db res).2.jobsSkipped +
        (runLoop env req fuel page cerr db res).2.recordErrors := by
  intro fuel
  induction fuel with
  | zero => intro page cerr db res h; exact h
  | succ f ih =>
    intro page cerr db res h
    simp only [runLoop]
    by_cases hstop : req.maxPages ≠ 0 ∧ req.startPage + req.maxPages ≤ page
    · rw [if_pos hstop]; exact h
    · rw [if_neg hstop]
      by_cases hcancel : env.cancelAt page = true
      · rw [if_pos hcancel]; exact h
      · rw [if_neg hcancel]
        cases env.fetchPage page with
        | error e =>
          dsimp only
          by_cases h412 : contains412 e = true
          · rw [if_pos h412]; exact h
          · rw [if_neg h412]
            by_cases hmax : maxConsecutiveErrors ≤ cerr + 1
            · rw [if_pos hmax]; exact h
            · rw [if_neg hmax]
              exact ih _ _ _ _ (by dsimp only; omega)
        | ok jobs =>
          dsimp only
          by_cases hempty : jobs = []
          · rw [if_pos hempty]; exact h
          · rw [if_neg hempty]
            have hinv := processJobs_inv env req.strategy jobs db
              (pageEntry res page) (by simp [pageEntry]; omega)
            rcases hproc : processJobs env req.strategy jobs db
              (pageEntry res page) with ⟨db2, res2, brk⟩
            rw [hproc] at hinv
            cases brk with
            | true => exact hinv
            | false => exact ih _ _ _ _ hinv

theorem runLoop_preStatus (env : Env) (req : ScrapeRequest) :
    ∀ (fuel page cerr : Nat) (db : DBState) (res : RunResult),
      res.status = "completed" →
      preStatusOK (runLoop env req fuel page cerr db res).2 := by
  intro fuel
  induction fuel with
  | zero => intro page cerr db res h; exact Or.inl h
  | succ f ih =>
    intro page cerr db res h
    simp only [runLoop]
    by_cases hstop : req.maxPages ≠ 0 ∧ req.startPage + req.maxPages ≤ page
    · rw [if_pos hstop]; exact Or.inl h
    · rw [if_neg hstop]
      by_cases hcancel : env.cancelAt page = true
      · rw [if_pos hcancel]
        exact Or.inr (Or.inl ⟨rfl, rfl⟩)
      · rw [if_neg hcancel]
        cases env.fetchPage page with
        | error e =>
          dsimp only
          by_cases h412 : contains412 e = true
          · rw [if_pos h412]; exact Or.inl h
          · rw [if_neg h412]
            by_cases hmax : maxConsecutiveErrors ≤ cerr + 1
            · rw [if_pos hmax]
              exact Or.inr (Or.inr ⟨rfl, rfl⟩)
            · rw [if_neg hmax]
              exact ih _ _ _ _ h
        | ok jobs =>
          dsimp only
          by_cases hempty : jobs = []
          · rw [if_pos hempty]; exact Or.inl h
          · rw [if_neg hempty]
            have hstat := processJobs_status env req.strategy jobs db
              (pageEntry res page)
            rcases hproc : processJobs env req.strategy jobs db
              (pageEntry res page) with ⟨db2, res2, brk⟩
            rw [hproc] at hstat
            cases brk with
            | true => exact Or.inl (hstat.trans h)
            | false => exact ih _ _ _ _ (hstat.trans h)

theorem finalizeRun_override (res : RunResult)
    (h : res.errors ≠ [] ∧ res.jobsInserted = 0 ∧ res.jobsUpdated = 0) :
    (finalizeRun res).status = "failed" := by
  unfold finalizeRun
  rw [if_pos h]

theorem finalizeRun_keep (res : RunResult)
    (h : ¬(res.errors ≠ [] ∧ res.jobsInserted = 0 ∧ res.jobsUpdated = 0)) :
    finalizeRun res = res := by
  unfold finalizeRun
  rw [if_neg h]

theorem finalizeRun_failed (res : RunResult) (h : res.status = "failed") :
    (finalizeRun res).status = "failed" := by
  unfold finalizeRun
  split
  · rfl
  · exact h

theorem runLoop_threshold (env : Env) (req : ScrapeRequest) (es : Nat → String) :
    ∀ (k page cerr fuel : Nat) (db : DBState) (res : RunResult),
      cerr + k = maxConsecutiveErrors → 1 ≤ k → k ≤ fuel →
      (∀ i, i < k → env.cancelAt (page + i) = false) →
      (∀ i, i < k → env.fetchPage (page + i) = Except.error (es (page + i))) →
      (∀ i, i < k → contains412 (es (page + i)) = false) →
      (∀ i, i < k → req.maxPages = 0 ∨ page + i < req.startPage + req.maxPages) →
      runLoop env req fuel page cerr db res =
        (db, { res with
          errors := res.errors ++ (List.range' page k).map
            (fun p => "page " ++ toString p ++ ": " ++ es p),
          fetchedPages := res.fetchedPages ++ List.range' page k,
          status := "failed",
          stopReason := "too many consecutive errors" }) := by
  intro k
  induction k with
  | zero =>
    intro page cerr fuel db res hsum hk
    omega
  | succ k ih =>
    intro page cerr fuel db res hsum hk hfuel hcancel hfetch h412 hbound
    match fuel, hfuel with
    | f + 1, _ =>
      have hc0 : env.cancelAt page = false := by
        have := hcancel 0 (Nat.succ_pos k); simpa using this
      have hf0 : env.fetchPage page = Except.error (es page) := by
        have := hfetch 0 (Nat.succ_pos k); simpa using this
      have h4120 : contains412 (es page) = false := by
        have := h412 0 (Nat.succ_pos k); simpa using this
      simp only [runLoop]
      rw [if_neg (by
        intro hcontra
        rcases hbound 0 (Nat.succ_pos k) with hb | hb
        · exact hcontra.1 hb
        · omega)]
      rw [if_neg (by simp [hc0])]
      rw [hf0]
      dsimp only
      rw [if_neg (by simp [h4120])]
      by_cases hlast : maxConsecutiveErrors ≤ cerr + 1
      · have hk0 : k = 0 := by
          unfold maxConsecutiveErrors at hsum hlast
          omega
        subst hk0
        rw [if_pos hlast]
        simp [List.range'_one]
      · rw [if_neg hlast]
        rw [ih (page + 1) (cerr + 1) f db _
          (by unfold maxConsecutiveErrors at hsum ⊢; omega)
          (by unfold maxConsecutiveErrors at hsum hlast; omega)
          (by omega)
          (fun i hi => by
            have := hcancel (i + 1) (by omega)
            rw [show page + (i + 1) = page + 1 + i by omega] at this
            exact this)
          (fun i hi => by
            have := hfetch (i + 1) (by omega)
            rw [show page + (i + 1) = page + 1 + i by omega] at this
            exact this)
          (fun i hi => by
            have := h412 (i + 1) (by omega)
            rw [show page + (i + 1) = page + 1 + i by omega] at this
            exact this)
          (fun i hi => by
            have := hbound (i + 1) (by omega)
            rw [show page + (i + 1) = page + 1 + i by omega] at this
            exact this)]
        simp [List.range'_succ, List.append_assoc]

/-! ## The claims about the run orchestrator -/

/-- C1: in an incremental run, when the page loop reaches a page whose
summary list is `pre ++ j :: post` and processing `pre` triggers no cutoff,
then if `j`'s record already exists with an unchanged timestamp, the run
returns at once: the skipped counter rises by exactly one relative to the
page entry, nothing of `post` or of any later page is processed or fetched,
and the stop reason reports the incremental cutoff. -/
theorem claim_C1_incrementalCutoff (env : Env) (req : ScrapeRequest)
    (fuel page cerr : Nat) (db : DBState) (res : RunResult)
    (pre post : List JobDetail) (j : JobDetail) (db1 : DBState)
    (res1 : RunResult)
    (hstrat : req.strategy = "incremental")
    (hbound : req.maxPages = 0 ∨ page < req.startPage + req.maxPages)
    (hcancel : env.cancelAt page = false)
    (hfetch : env.fetchPage page = Except.ok (pre ++ j :: post))
    (hpre : processJobs env req.strategy pre db (pageEntry res page) =
      (db1, res1, false))
    (hcheck : env.checkFault res1.jobsProcessed = false)
    (hstored : getJobLastUpdated db1 j.id = some j.updatedTime) :
    runLoop env req (fuel + 1) page cerr db res =
      (db1, { res1 with jobsProcessed := res1.jobsProcessed + 1,
                        jobsSkipped := res1.jobsSkipped + 1,
                        stopReason := "incremental: up to date" }) ∧
    res1.jobsSkipped = res.jobsSkipped := by
  constructor
  · simp only [runLoop]
    rw [if_neg (by
      intro hcontra
      rcases hbound with hb | hb
      · exact hcontra.1 hb
      · omega)]
    rw [if_neg (by simp [hcancel])]
    rw [hfetch]
    dsimp only
    rw [if_neg (by simp)]
    rw [processJobs_append, hpre]
    dsimp only
    simp only [processJobs]
    rw [if_neg (by simp [hcheck])]
    rw [if_pos ⟨hstrat, hstored⟩]
  · exact (processJobs_noBreak env req.strategy pre db (pageEntry res page)
      db1 res1 hpre).1

/-- Witness for C1: a one-record page whose record is already stored with an
unchanged timestamp ends the incremental run with exactly one skip. -/
theorem claim_C1_incrementalCutoff_witness :
    runLoop envC1 reqIncremental 1 0 0 (upsertJob DBState.empty jobA)
      initResult =
      (upsertJob DBState.empty jobA,
        { pageEntry initResult 0 with
            jobsProcessed := (pageEntry initResult 0).jobsProcessed + 1,
            jobsSkipped := (pageEntry initResult 0).jobsSkipped + 1,
            stopReason := "incremental: up to date" }) ∧
    (pageEntry initResult 0).jobsSkipped = initResult.jobsSkipped :=
  claim_C1_incrementalCutoff envC1 reqIncremental 0 0 0
    (upsertJob DBState.empty jobA) initResult [] [] jobA
    (upsertJob DBState.empty jobA) (pageEntry initResult 0)
    rfl (Or.inl rfl) rfl rfl rfl rfl (by decide)

/-- C7 counterexample: a run that inserts one record on page 0 and then hits
the consecutive-error threshold is finalized as `failed`, while the claim's
derivation (errors with zero net writes mean failed, cancellation means
cancelled, every other run means completed) predicts `completed`. -/
theorem claim_C7_statusDerivation_cex :
    ¬ claim7Statement (runnerRun envC7 reqFull 12 DBState.empty).2 := by
  unfold claim7Statement
  intro h
  have h3 := h.2.2 (by decide) (by decide)
  exact absurd h3 (by decide)

/-- C7 (amended): during the run the status is `completed` unless
cancellation set `cancelled` or the consecutive-error threshold set
`failed`, each with its stop reason; finalization overrides the status to
`failed` — even a cancelled one — exactly when the run accumulated an error
and inserted and updated nothing, and otherwise keeps the in-run status. -/
theorem claim_C7_statusDerivation (env : Env) (req : ScrapeRequest)
    (fuel : Nat) (db : DBState) :
    ((runLoop env req fuel req.startPage 0 db initResult).2.errors ≠ [] ∧
      (runLoop env req fuel req.startPage 0 db initResult).2.jobsInserted = 0 ∧
      (runLoop env req fuel req.startPage 0 db initResult).2.jobsUpdated = 0 →
      (runnerRun env req fuel db).2.status = "failed") ∧
    (¬((runLoop env req fuel req.startPage 0 db initResult).2.errors ≠ [] ∧
      (runLoop env req fuel req.startPage 0 db initResult).2.jobsInserted = 0 ∧
      (runLoop env req fuel req.startPage 0 db initResult).2.jobsUpdated = 0) →
      (runnerRun env req fuel db).2.status =
        (runLoop env req fuel req.startPage 0 db initResult).2.status) ∧
    preStatusOK (runLoop env req fuel req.startPage 0 db initResult).2 := by
  refine ⟨?_, ?_, runLoop_preStatus env req fuel req.startPage 0 db
    initResult rfl⟩
  · intro h
    exact finalizeRun_override _ h
  · intro h
    rw [show (runnerRun env req fuel db).2 =
      finalizeRun (runLoop env req fuel req.startPage 0 db initResult).2
      from rfl]
    rw [finalizeRun_keep _ h]

/-- Witness for C7 (amended): the run of the counterexample environment has
net writes, so finalization keeps the in-run status. -/
theorem claim_C7_statusDerivation_witness :
    (runnerRun envC7 reqFull 12 DBState.empty).2.status =
      (runLoop envC7 reqFull 12 reqFull.startPage 0 DBState.empty
        initResult).2.status ∧
    preStatusOK (runLoop envC7 reqFull 12 reqFull.startPage 0 DBState.empty
      initResult).2 :=
  ⟨(claim_C7_statusDerivation envC7 reqFull 12 DBState.empty).2.1 (by decide),
    (claim_C7_statusDerivation envC7 reqFull 12 DBState.empty).2.2⟩

/-- C8 counterexample: ten consecutive page-fetch failures whose last one
carries the rate-limit marker stop the run with the 412 reason and — after a
page-0 insert — the status `completed`, not `failed` with the
too-many-consecutive-errors reason the claim requires of any N consecutive
failures. -/
theorem claim_C8_errorThreshold_cex :
    ((List.range' 1 10).all (fun p => exceptIsError (envC8.fetchPage p))) =
      true ∧
    (runnerRun envC8 reqFull 12 DBState.empty).2.status = "completed" ∧
    (runnerRun envC8 reqFull 12 DBState.empty).2.stopReason =
      "API limit reached (412)" := by decide

/-- C8 (amended): after ten consecutive ordinary (non-rate-limit) page-fetch
failures the run fetches no further pages and ends failed with the
too-many-consecutive-errors stop reason (which finalization preserves), and
any successful page fetch resets the consecutive-failure counter to zero. -/
theorem claim_C8_errorThreshold (env : Env) (req : ScrapeRequest)
    (es : Nat → String) (fuel page : Nat) (db : DBState) (res : RunResult) :
    (10 ≤ fuel →
      (∀ i, i < 10 → env.cancelAt (page + i) = false) →
      (∀ i, i < 10 → env.fetchPage (page + i) = Except.error (es (page + i))) →
      (∀ i, i < 10 → contains412 (es (page + i)) = false) →
      (∀ i, i < 10 →
        req.maxPages = 0 ∨ page + i < req.startPage + req.maxPages) →
      runLoop env req fuel page 0 db res =
        (db, { res with
          errors := res.errors ++ (List.range' page 10).map
            (fun p => "page " ++ toString p ++ ": " ++ es p),
          fetchedPages := res.fetchedPages ++ List.range' page 10,
          status := "failed",
          stopReason := "too many consecutive errors" })) ∧
    (∀ r : RunResult, r.status = "failed" →
      (finalizeRun r).status = "failed") ∧
    (∀ (fuel2 page2 cerr2 : Nat) (jobs : List JobDetail) (db2 db3 : DBState)
      (res2 res3 : RunResult),
      ¬(req.maxPages ≠ 0 ∧ req.startPage + req.maxPages ≤ page2) →
      env.cancelAt page2 = false →
      env.fetchPage page2 = Except.ok jobs → jobs ≠ [] →
      processJobs env req.strategy jobs db2 (pageEntry res2 page2) =
        (db3, res3, false) →
      runLoop env req (fuel2 + 1) page2 cerr2 db2 res2 =
        runLoop env req fuel2 (page2 + 1) 0 db3 res3) := by
  refine ⟨?_, finalizeRun_failed, ?_⟩
  · intro hfuel hcancel hfetch h412 hbound
    exact runLoop_threshold env req es 10 page 0 fuel db res rfl
      (by omega) hfuel hcancel hfetch h412 hbound
  · intro fuel2 page2 cerr2 jobs db2 db3 res2 res3 hb hcancel hfetch hjobs hproc
    simp only [runLoop]
    rw [if_neg hb]
    rw [if_neg (by simp [hcancel])]
    rw [hfetch]
    dsimp only
    rw [if_neg hjobs]
    rw [hproc]

/-- Witness for C8 (amended): an environment where every page fails with an
ordinary error stops after exactly ten fetches with status failed. -/
theorem claim_C8_errorThreshold_witness :
    runLoop envAllFail reqFull 10 0 0 DBState.empty initResult =
      (DBState.empty, { initResult with
        errors := initResult.errors ++ (List.range' 0 10).map
          (fun p => "page " ++ toString p ++ ": " ++ (fun _ => "boom") p),
        fetchedPages := initResult.fetchedPages ++ List.range' 0 10,
        status := "failed",
        stopReason := "too many consecutive errors" }) :=
  (claim_C8_errorThreshold envAllFail reqFull (fun _ => "boom") 10 0
    DBState.empty initResult).1 (by omega)
    (fun i _ => rfl) (fun i _ => rfl) (fun i _ => by decide)
    (fun i _ => Or.inl rfl)

/-- C10: on exit of every run, the processed counter equals the sum of the
inserted, updated and skipped counters and the per-record failure count
(existence check, detail fetch, store), so it is in particular at least
inserted + updated + skipped. -/
theorem claim_C10_processedConservation (env : Env) (req : ScrapeRequest)
    (fuel : Nat) (db : DBState) :
    (runnerRun env req fuel db).2.jobsProcessed =
      (runnerRun env req fuel db).2.jobsInserted +
        (runnerRun env req fuel db).2.jobsUpdated +
        (runnerRun env req fuel db).2.jobsSkipped +
        (runnerRun env req fuel db).2.recordErrors ∧
    (runnerRun env req fuel db).2.jobsInserted +
        (runnerRun env req fuel db).2.jobsUpdated +
        (runnerRun env req fuel db).2.jobsSkipped ≤
      (runnerRun env req fuel db).2.jobsProcessed := by
  have h := runLoop_inv env req fuel req.startPage 0 db initResult rfl
  have hfin : (runnerRun env req fuel db).2 =
      finalizeRun (runLoop env req fuel req.startPage 0 db initResult).2 := rfl
  have hcounters : ∀ r : RunResult,
      (finalizeRun r).jobsProcessed = r.jobsProcessed ∧
      (finalizeRun r).jobsInserted = r.jobsInserted ∧
      (finalizeRun r).jobsUpdated = r.jobsUpdated ∧
      (finalizeRun r).jobsSkipped = r.jobsSkipped ∧
      (finalizeRun r).recordErrors = r.recordErrors := by
    intro r
    unfold finalizeRun
    split <;> exact ⟨rfl, rfl, rfl, rfl, rfl⟩
  rw [hfin]
  obtain ⟨p1, p2, p3, p4, p5⟩ :=
    hcounters (runLoop env req fuel req.startPage 0 db initResult).2
  rw [p1, p2, p3, p4, p5]
  omega

end JobGipfel
